import Mathlib

set_option maxRecDepth 10000

/-!
Verification of the strato-fix-all-the-things pipeline core against its design
specification.  The Python sources embedded here are `src/claude_runner.py`
(structured-result extraction), `src/agents/fix.py` (the fix agent) and
`src/pipeline.py` (the orchestrator).  External agent processes are modelled
as an oracle supplying their outcomes; `models.py` and `agents/base.py` are
absent from the source tree, so the data records they define are modelled
from the specification, as marked on each such definition.
-/

abbrev Chars := List Char

/-! ## JSON values: model of Python `json.loads` results and payload dicts -/

/-- A decoded JSON value as produced by Python `json.loads`.  Numbers are
modelled as rationals (Python ints and floats compare equal when their
values do, which is the only use the embedded code makes of them). -/
inductive Json where
  | null : Json
  | bool : Bool → Json
  | num : ℚ → Json
  | str : String → Json
  | arr : List Json → Json
  | obj : List (String × Json) → Json

/-- Dictionary lookup; with duplicate keys the last occurrence wins, the way
a dict built by `json.loads` retains the last value for a repeated key. -/
def jGet (kvs : List (String × Json)) (k : String) : Option Json :=
  kvs.foldl (fun acc p => if p.1 = k then some p.2 else acc) none

/-- `payload.get(k)`: payloads handled by the embedded code are always
objects; the other variants are unreachable and yield `none`. -/
def Json.get : Json → String → Option Json
  | .obj kvs, k => jGet kvs k
  | _, _ => none

/-- `required_field in obj` for a decoded candidate.  Every candidate the
extractor decodes begins with a brace, so a successful decode is an object
and the test is key membership. -/
def hasKey (j : Json) (field : String) : Bool :=
  match j with
  | .obj kvs => kvs.any (fun p => p.1 = field)
  | _ => false

/-! ### `json.loads`, fuel-based recursive descent -/

def isJsonWs (c : Char) : Bool :=
  c == ' ' || c == '\t' || c == '\n' || c == '\r'

def skipJWs (s : Chars) : Chars := s.dropWhile isJsonWs

def hexVal (c : Char) : Option Nat :=
  if '0' ≤ c ∧ c ≤ '9' then some (c.toNat - '0'.toNat)
  else if 'a' ≤ c ∧ c ≤ 'f' then some (c.toNat - 'a'.toNat + 10)
  else if 'A' ≤ c ∧ c ≤ 'F' then some (c.toNat - 'A'.toNat + 10)
  else none

/-- Parse the body of a JSON string (opening quote already consumed),
returning the decoded characters and the rest of the input.  Raw control
characters are rejected, as `json.loads` does in its default strict mode. -/
def parseJStr : Nat → Chars → Option (Chars × Chars)
  | 0, _ => none
  | _, [] => none
  | fuel+1, c :: rest =>
    if c == '"' then some ([], rest)
    else if c == '\\' then
      match rest with
      | [] => none
      | e :: rest2 =>
        if e == 'u' then
          match rest2 with
          | h1 :: h2 :: h3 :: h4 :: rest3 =>
            match hexVal h1, hexVal h2, hexVal h3, hexVal h4 with
            | some a, some b, some c', some d =>
              (parseJStr fuel rest3).map
                (fun r => (Char.ofNat (((a * 16 + b) * 16 + c') * 16 + d) :: r.1, r.2))
            | _, _, _, _ => none
          | _ => none
        else
          match (if e == '"' then some '"'
                 else if e == '\\' then some '\\'
                 else if e == '/' then some '/'
                 else if e == 'b' then some '\x08'
                 else if e == 'f' then some '\x0c'
                 else if e == 'n' then some '\n'
                 else if e == 'r' then some '\r'
                 else if e == 't' then some '\t'
                 else none) with
          | some d => (parseJStr fuel rest2).map (fun r => (d :: r.1, r.2))
          | none => none
    else if c.toNat < 32 then none
    else (parseJStr fuel rest).map (fun r => (c :: r.1, r.2))

def isDigit (c : Char) : Bool := '0' ≤ c && c ≤ '9'

def digitsToNat (ds : Chars) : Nat :=
  ds.foldl (fun acc c => acc * 10 + (c.toNat - '0'.toNat)) 0

/-- Parse a JSON number per the RFC grammar `-? int frac? exp?` with
`int = 0 | [1-9][0-9]*`, yielding its exact rational value. -/
def parseJNum (s : Chars) : Option (ℚ × Chars) :=
  let (neg, s1) := match s with
    | '-' :: r => (true, r)
    | _ => (false, s)
  let ip := s1.takeWhile isDigit
  let s2 := s1.dropWhile isDigit
  if ip = [] then none
  else if ip.length > 1 ∧ ip.headD '0' = '0' then none
  else
    let (fp, s3) := match s2 with
      | '.' :: r =>
        let f := r.takeWhile isDigit
        (some f, r.dropWhile isDigit)
      | _ => (none, s2)
    if fp = some [] then none
    else
      let (ex, s4) := match s3 with
        | 'e' :: r => (some r, r)
        | 'E' :: r => (some r, r)
        | _ => (none, s3)
      let (expVal, s5) : Option Int × Chars := match ex with
        | none => (none, s4)
        | some r =>
          let (eneg, r1) := match r with
            | '-' :: t => (true, t)
            | '+' :: t => (false, t)
            | _ => (false, r)
          let ed := r1.takeWhile isDigit
          if ed = [] then (none, s4)
          else
            let v : Int := Int.ofNat (digitsToNat ed)
            (some (if eneg then -v else v), r1.dropWhile isDigit)
      if ex.isSome ∧ expVal.isNone then none
      else
        let fracDigits := (fp.getD []).length
        let mant : Int := Int.ofNat (digitsToNat (ip ++ fp.getD []))
        let mant := if neg then -mant else mant
        let e : Int := expVal.getD 0 - Int.ofNat fracDigits
        some ((mant : ℚ) * (10 : ℚ) ^ e, s5)

/-- Parse the members of a JSON object, positioned right after the opening
brace or a separating comma (so a member is expected next), given a parser
for values. -/
def parseMembersWith (pv : Chars → Option (Json × Chars)) :
    Nat → Chars → Option (List (String × Json) × Chars)
  | 0, _ => none
  | fuel+1, s =>
    match skipJWs s with
    | '"' :: r =>
      match parseJStr (r.length + 1) r with
      | some (kcs, r2) =>
        match skipJWs r2 with
        | ':' :: r3 =>
          match pv (skipJWs r3) with
          | some (v, r4) =>
            match skipJWs r4 with
            | '\x7d' :: r5 => some ([(String.mk kcs, v)], r5)
            | ',' :: r5 =>
              (parseMembersWith pv fuel r5).map
                (fun t => ((String.mk kcs, v) :: t.1, t.2))
            | _ => none
          | none => none
        | _ => none
      | none => none
    | _ => none

/-- Parse the items of a JSON array, positioned right after the opening
bracket or a separating comma, given a parser for values. -/
def parseItemsWith (pv : Chars → Option (Json × Chars)) :
    Nat → Chars → Option (List Json × Chars)
  | 0, _ => none
  | fuel+1, s =>
    match pv (skipJWs s) with
    | some (v, r) =>
      match skipJWs r with
      | ']' :: r2 => some ([v], r2)
      | ',' :: r2 =>
        (parseItemsWith pv fuel r2).map (fun t => (v :: t.1, t.2))
      | _ => none
    | none => none

def startsWithChars (pat : Chars) (s : Chars) : Bool := pat.isPrefixOf s

/-- Parse one JSON value (leading whitespace tolerated). -/
def parseJVal : Nat → Chars → Option (Json × Chars)
  | 0, _ => none
  | fuel+1, s =>
    let s := skipJWs s
    match s with
    | [] => none
    | c :: rest =>
      if c == 'n' then
        if startsWithChars ['u', 'l', 'l'] rest then some (.null, rest.drop 3) else none
      else if c == 't' then
        if startsWithChars ['r', 'u', 'e'] rest then some (.bool true, rest.drop 3) else none
      else if c == 'f' then
        if startsWithChars ['a', 'l', 's', 'e'] rest then some (.bool false, rest.drop 4) else none
      else if c == '"' then
        (parseJStr (rest.length + 1) rest).map (fun r => (.str (String.mk r.1), r.2))
      else if c == '\x7b' then
        match skipJWs rest with
        | '\x7d' :: r => some (.obj [], r)
        | _ =>
          (parseMembersWith (parseJVal fuel) (rest.length + 1) rest).map
            (fun r => (.obj r.1, r.2))
      else if c == '[' then
        match skipJWs rest with
        | ']' :: r => some (.arr [], r)
        | _ =>
          (parseItemsWith (parseJVal fuel) (rest.length + 1) rest).map
            (fun r => (.arr r.1, r.2))
      else
        (parseJNum s).map (fun r => (.num r.1, r.2))

/-- `json.loads` on a character list: one value, then only trailing
whitespace. -/
def json_loadsChars (s : Chars) : Option Json :=
  match parseJVal (s.length + 1) s with
  | some (j, rest) => if skipJWs rest = [] then some j else none
  | none => none

def json_loads (s : String) : Option Json := json_loadsChars s.data

/-! ## Result extractor: model of `claude_runner.extract_json_from_output`

The function scans Python-regex matches of
`\x60\x60\x60json\s*(\{.+\})\s*\x60\x60\x60` with `re.DOTALL` over each
collected text, then over the unescaped raw output, then matches of
`\{[^{}]*"FIELD"[^{}]*\}` over the raw text.  Python resolves the first
pattern deterministically: the match starts at the leftmost fence tag, the
greedy `.+` extends the capture to the last position whose closing brace is
followed (modulo whitespace) by a closing fence, and scanning resumes after
the match.  The second pattern matches a brace-free span that starts with an
opening brace, ends at the next brace (which must be closing) and contains
the quoted field name.  Python exceptions escaping the function (attribute
errors on event records of unexpected shape) are modelled as `Except.error`.
-/

/-- Characters of the Python regex class `\s` (ASCII range). -/
def isReWs (c : Char) : Bool :=
  c == ' ' || c == '\t' || c == '\n' || c == '\r' || c == '\x0b' || c == '\x0c'

/-- First index at or after `i` holding a non-whitespace character. -/
def skipWsIdx (s : Chars) (i : Nat) : Nat :=
  i + ((s.drop i).takeWhile isReWs).length

/-- Does the literal `pat` occur at index `i` of `s`? -/
def isAt (s : Chars) (i : Nat) (pat : String) : Bool :=
  startsWithChars pat.data (s.drop i)

def sliceC (s : Chars) (a b : Nat) : Chars := (s.drop a).take (b - a)

/-- If `s` has a closing brace at `m` followed, modulo whitespace, by a
closing fence, return the index just after that fence. -/
def matchEnd (s : Chars) (m : Nat) : Option Nat :=
  if s.get? m = some '\x7d' then
    let k := skipWsIdx s (m + 1)
    if isAt s k "```" then some (k + 3) else none
  else none

/-- Largest `m < bound` with `m ≥ lo` at which `matchEnd` succeeds, scanning
downward from the bound: the resolution of the greedy `.+`. -/
def findLastM (s : Chars) (lo : Nat) : Nat → Option (Nat × Nat)
  | 0 => none
  | m + 1 =>
    if m < lo then none
    else
      match matchEnd s m with
      | some e => some (m, e)
      | none => findLastM s lo m

/-- Try to match the fenced-block pattern starting exactly at index `i`,
returning the capture group and the index just after the whole match. -/
def fenceMatchAt (s : Chars) (i : Nat) : Option (Chars × Nat) :=
  if isAt s i "```json" then
    let j := skipWsIdx s (i + 7)
    if s.get? j = some '\x7b' then
      match findLastM s (j + 2) s.length with
      | some (m, e) => some (sliceC s j (m + 1), e)
      | none => none
    else none
  else none

/-- `re.findall` for the fenced-block pattern: leftmost matches, scanning
resuming after each whole match. -/
def findallFencedAux (s : Chars) : Nat → Nat → List Chars
  | 0, _ => []
  | fuel + 1, i =>
    if i ≥ s.length then []
    else
      match fenceMatchAt s i with
      | some (cap, e) => cap :: findallFencedAux s fuel e
      | none => findallFencedAux s fuel (i + 1)

def findallFenced (s : Chars) : List Chars := findallFencedAux s (s.length + 1) 0

/-- Does `pat` occur as a contiguous sublist of `s`? -/
def containsSub (pat : Chars) : Chars → Bool
  | [] => startsWithChars pat []
  | c :: rest => startsWithChars pat (c :: rest) || containsSub pat rest

/-- Index of the first brace character at or after `i`, if any. -/
def firstBrace (s : Chars) (i : Nat) : Option Nat :=
  let j := i + ((s.drop i).takeWhile (fun c => ¬(c == '\x7b' || c == '\x7d'))).length
  if j < s.length then some j else none

/-- `re.findall` for the raw single-level pattern
`\{[^{}]*"FIELD"[^{}]*\}`. -/
def rawMatchesAux (pat : Chars) (s : Chars) : Nat → Nat → List Chars
  | 0, _ => []
  | fuel + 1, i =>
    if i ≥ s.length then []
    else if s.get? i = some '\x7b' then
      match firstBrace s (i + 1) with
      | some j =>
        if s.get? j = some '\x7d' ∧ containsSub pat (sliceC s (i + 1) j) then
          sliceC s i (j + 1) :: rawMatchesAux pat s fuel (j + 1)
        else rawMatchesAux pat s fuel (i + 1)
      | none => rawMatchesAux pat s fuel (i + 1)
    else rawMatchesAux pat s fuel (i + 1)

def rawFieldMatches (field : String) (s : Chars) : List Chars :=
  rawMatchesAux ('"' :: field.data ++ ['"']) s (s.length + 1) 0

/-- One candidate check: decode, then test for the required field (the loop
body shared by all three extraction phases). -/
def acceptCandidate (field : String) (c : Chars) : Option Json :=
  match json_loadsChars c with
  | some j => if hasKey j field then some j else none
  | none => none

/-- Scan one text for fenced-block candidates, later candidates first. -/
def scanSegmentChars (field : String) (t : Chars) : Option Json :=
  (findallFenced t).reverse.findSome? (acceptCandidate field)

/-- Python `str.replace(pat, rep)`: leftmost non-overlapping occurrences,
the replacement text is not rescanned. -/
def replaceChars (pat rep : Chars) : Nat → Chars → Chars
  | 0, s => s
  | fuel + 1, s =>
    match s with
    | [] => []
    | c :: rest =>
      if startsWithChars pat s ∧ pat ≠ [] then
        rep ++ replaceChars pat rep fuel (s.drop pat.length)
      else c :: replaceChars pat rep fuel rest

/-- The unescaping fallback:
`output.replace("\\n", "\n").replace(chr(92)+chr(34), chr(34)).replace("\\\\", "\\")`. -/
def pyUnescape (s : Chars) : Chars :=
  let s1 := replaceChars ['\\', 'n'] ['\n'] (s.length + 1) s
  let s2 := replaceChars ['\\', '"'] ['"'] (s1.length + 1) s1
  replaceChars ['\\', '\\'] ['\\'] (s2.length + 1) s2

/-- Split on every newline character, Python `str.split("\n")`. -/
def splitLines : Chars → List Chars
  | [] => [[]]
  | c :: rest =>
    if c == '\n' then [] :: splitLines rest
    else
      match splitLines rest with
      | l :: ls => (c :: l) :: ls
      | [] => [[c]]

/-- Characters stripped by Python `str.strip()` (ASCII range). -/
def isPyStrip (c : Char) : Bool := isReWs c

/-- Is the optional value the given string?  Models a Python `==`
comparison between an arbitrary value and a string literal. -/
def isStrVal (o : Option Json) (s : String) : Bool :=
  match o with
  | some (.str t) => t = s
  | _ => false

/-- Collect the text items of one parsed event record.  A record that is not
an object, an `assistant` record whose `message` is not an object, or a
`content` that cannot be iterated over dictionaries, raises an
`AttributeError`/`TypeError` in Python, modelled as `Except.error`.  A text
value that is not a string is appended anyway and only crashes when the
scanning loop reaches it, modelled as a `none` item. -/
def lineTexts (j : Json) : Except Unit (List (Option Chars)) :=
  match j with
  | .obj kvs =>
    if isStrVal (jGet kvs "type") "assistant" then
      match (jGet kvs "message").getD (.obj []) with
      | .obj mkvs =>
        match (jGet mkvs "content").getD (.arr []) with
        | .arr xs =>
          xs.foldlM
            (fun acc x =>
              match x with
              | .obj ekvs =>
                if isStrVal (jGet ekvs "type") "text" then
                  match (jGet ekvs "text").getD (.str "") with
                  | .str s => Except.ok (acc ++ [some s.data])
                  | _ => Except.ok (acc ++ [none])
                else Except.ok acc
              | _ => Except.error ())
            []
        | .str "" => Except.ok []
        | .obj [] => Except.ok []
        | _ => Except.error ()
      | _ => Except.error ()
    else Except.ok []
  | _ => Except.error ()

/-- Phase 1 of the extractor: parse each nonblank line of the raw output as
an event record and collect the assistant text segments in emission
order. -/
def collectTextsGo : List Chars → Except Unit (List (Option Chars))
  | [] => Except.ok []
  | line :: rest =>
    if (line.dropWhile isPyStrip).isEmpty then collectTextsGo rest
    else
      match json_loadsChars line with
      | none => collectTextsGo rest
      | some j =>
        match lineTexts j with
        | .error e => .error e
        | .ok ts =>
          match collectTextsGo rest with
          | .error e => .error e
          | .ok more => .ok (ts ++ more)

def collectTexts (output : String) : Except Unit (List (Option Chars)) :=
  collectTextsGo (splitLines output.data)

/-- Phase 2: scan the collected texts most-recent-first; a non-string item
crashes when reached. -/
def scanTextsRev (field : String) : List (Option Chars) → Except Unit (Option Json)
  | [] => .ok none
  | none :: _ => .error ()
  | some t :: rest =>
    match scanSegmentChars field t with
    | some j => .ok (some j)
    | none => scanTextsRev field rest

/-- Model of `extract_json_from_output(output, required_field)`.  `.error`
marks a Python exception escaping the function; `.ok none` is `None`. -/
def extract_json_from_output (output : String) (field : String) :
    Except Unit (Option Json) :=
  match collectTexts output with
  | .error e => .error e
  | .ok items =>
    match scanTextsRev field items.reverse with
    | .error e => .error e
    | .ok (some j) => .ok (some j)
    | .ok none =>
      let text := pyUnescape output.data
      match scanSegmentChars field text with
      | some j => .ok (some j)
      | none =>
        match (rawFieldMatches field text).reverse.findSome? (acceptCandidate field) with
        | some j => .ok (some j)
        | none => .ok none

/-! ## Data model of the orchestrator

`models.py` is absent from `src`; the two records below are modelled from
the specification (§3), with exactly the fields `pipeline.py` reads and
writes.  Timestamps carry no logic, so `completed_at` is abstracted to the
flag "the completion timestamp has been set".
-/

inductive AgentStatus where
  | success
  | skipped
  | failed
deriving DecidableEq, Repr

inductive PipelineStatus where
  | running
  | success
  | skipped
  | failed
  | blocked
deriving DecidableEq, Repr

/-- Modelled from the spec: `models.py` is absent from `src`; §3 defines
`AgentState` as the immutable record of one agent attempt: agent
identifier, status, confidence, structured payload, optional error
message (empty string when unset, matching the `error or default`
idiom in `pipeline.py`). -/
structure AgentStateM where
  agent : String
  status : AgentStatus
  confidence : ℚ
  data : Json
  error : String

/-- Modelled from the spec: `models.py` is absent from `src`; §3 defines
`PipelineState` as the per-run record: overall status, issue number,
current-agent marker, ordered log of completed stage identifiers, failure
reason, aggregate confidence, per-agent confidence breakdown and the
completion timestamp (abstracted to the flag `completed_at`). -/
structure PipelineStateM where
  status : PipelineStatus
  issue_number : Nat
  current_agent : String
  agents_completed : List String
  failure_reason : String
  aggregate_confidence : Option ℚ
  confidence_breakdown : List (String × ℚ)
  completed_at : Bool

/-! ## Payload normalization (`agents/fix.py` and `pipeline.py`) -/

/-- Python truthiness of a decoded payload value. -/
def truthy : Json → Bool
  | .null => false
  | .bool b => b
  | .num q => q ≠ 0
  | .str s => s ≠ ""
  | .arr [] => false
  | .arr (_ :: _) => true
  | .obj [] => false
  | .obj (_ :: _) => true

/-- Python `float(x)` on a payload value: numbers pass through, booleans
become 0 or 1, numeric strings are parsed; anything else raises, modelled
as `none`. -/
def pyFloat : Json → Option ℚ
  | .num q => some q
  | .bool b => some (if b then 1 else 0)
  | .str s =>
    let t := (s.data.dropWhile isPyStrip).reverse.dropWhile isPyStrip |>.reverse
    match parseJNum t with
    | some (q, rest) => if rest = [] then some q else none
    | none => none
  | _ => none

/-- The confidence adapter shared by `FixAgent.run` and
`Pipeline._run_fix_revision`: a dict uses its `overall` entry (default 0.5),
anything else is converted directly; a value `float()` rejects raises,
modelled as `none`. -/
def normalizeConfidence (conf_data : Json) : Option ℚ :=
  match conf_data with
  | .obj kvs => pyFloat ((jGet kvs "overall").getD (.num (1 / 2)))
  | v => pyFloat v

/-- The file-list adapter: `data.get("files_changed") or
data.get("files_modified", [])`. -/
def mergedFileList (data : Json) : Json :=
  let a := (data.get "files_changed").getD .null
  if truthy a then a else (data.get "files_modified").getD (.arr [])

/-! ## The fix agent (`agents/fix.py`) -/

/-- Outcome of one external Claude invocation as consumed by the embedded
code: a timeout, a non-zero exit with its stderr text, or a success carrying
the combined result of the stage's ordered `extract_json_from_output`
attempts on the captured output (the extractor itself is modelled above and
verified separately). -/
inductive ClaudeOutcome where
  | timeout (msg : String)
  | procFailed (err : String)
  | ok (extracted : Option Json)

/-- The synthesized payload `FixAgent.run` falls back to when extraction
finds nothing. -/
def fixDefaultData : Json :=
  .obj [("confidence", .num (1 / 2)), ("files_changed", .arr []),
        ("summary", .str "Fix completed but no structured output"),
        ("tests_added", .arr [])]

/-- `FixAgent.run`: requires a successful research stage, then runs Claude
and normalizes the extracted payload.  `.error` marks the `float()` call
raising on a malformed confidence value. -/
def fixAgentRun (research : Option AgentStateM) (claude : ClaudeOutcome) :
    Except Unit (AgentStatus × Json) :=
  match research with
  | none => .ok (.failed, .obj [("error", .str "Research not completed")])
  | some r =>
    if r.status ≠ AgentStatus.success then
      .ok (.failed, .obj [("error", .str "Research not completed")])
    else
      match claude with
      | .timeout msg => .ok (.failed, .obj [("error", .str msg)])
      | .procFailed err => .ok (.failed, .obj [("error", .str err)])
      | .ok extracted =>
        let data := extracted.getD fixDefaultData
        match normalizeConfidence ((data.get "confidence").getD (.num (1 / 2))) with
        | none => .error ()
        | some confidence =>
          let files := mergedFileList data
          if ¬ truthy files then
            .ok (.skipped,
              .obj [("confidence", .num confidence), ("files_changed", .arr []),
                    ("summary", .str "No changes made"), ("tests_added", .arr [])])
          else
            .ok (.success,
              .obj [("confidence", .num confidence), ("files_changed", files),
                    ("summary", (data.get "summary").getD (.str "")),
                    ("tests_added", (data.get "tests_added").getD (.arr [])),
                    ("full_result", data)])

/-- Modelled from the spec: `agents/base.py` is absent from `src`; §4.2 has
`execute(context) -> AgentState` wrap a variant's `(status, data)` result
into that stage's `AgentState`, carrying the payload's confidence and, on
failure, the payload's error text. -/
def executeM (name : String) (r : AgentStatus × Json) : AgentStateM :=
  { agent := name
    status := r.1
    confidence := match r.2.get "confidence" with
      | some (.num q) => q
      | _ => 0
    data := r.2
    error := match r.2.get "error" with
      | some (.str s) => s
      | _ => "" }

/-! ## The pipeline state machine (`pipeline.py`) -/

/-- Maximum fix-review iterations before giving up. -/
def MAX_FIX_REVIEW_ITERATIONS : Nat := 3

/-- The fixed stage-role weights of `Pipeline._calculate_confidence`. -/
def confidenceWeights : List (String × ℚ) :=
  [("triage", 15 / 100), ("research", 20 / 100), ("fix", 35 / 100), ("review", 30 / 100)]

/-- Round to the nearest integer, ties to the even neighbour. -/
def roundHalfEven (x : ℚ) : ℤ :=
  let f := ⌊x⌋
  let r := x - (f : ℚ)
  if r < 1 / 2 then f
  else if 1 / 2 < r then f + 1
  else if f % 2 = 0 then f else f + 1

/-- Python `round(x, 2)` in exact arithmetic: banker's rounding at the
second decimal place. -/
def round2 (x : ℚ) : ℚ := (roundHalfEven (x * 100) : ℚ) / 100

def lookupAgent (agents : List (String × AgentStateM)) (name : String) :
    Option AgentStateM :=
  (agents.find? (fun p => p.1 == name)).map (·.2)

/-- Assignment into the `agent_states` dict: replace in place, or append in
insertion order. -/
def setAgentState (agents : List (String × AgentStateM)) (name : String)
    (st : AgentStateM) : List (String × AgentStateM) :=
  if agents.any (fun p => p.1 == name) then
    agents.map (fun p => if p.1 == name then (name, st) else p)
  else agents ++ [(name, st)]

/-- `Pipeline._calculate_confidence`: the weighted total over the stage
roles present in `agent_states`, rounded to two decimals, plus the
per-stage breakdown. -/
def calcConfidence (agents : List (String × AgentStateM)) :
    ℚ × List (String × ℚ) :=
  let acc := confidenceWeights.foldl
    (fun acc nw =>
      match lookupAgent agents nw.1 with
      | some st => (acc.1 + st.confidence * nw.2, acc.2 ++ [(nw.1, st.confidence)])
      | none => acc)
    ((0 : ℚ), ([] : List (String × ℚ)))
  (round2 acc.1, acc.2)

/-- The external collaborators of one run.  Each agent stage is an opaque
external process (§6), so the oracle supplies the `AgentState` its
`execute` produces; revision-mode invocations are consumed inline by
`_run_fix_revision`, so for those the oracle supplies the raw
`ClaudeOutcome`, indexed by the iteration counter, together with whether
the revision prompt template file exists. -/
structure Oracle where
  triage : AgentStateM
  research : AgentStateM
  fixFirst : AgentStateM
  review : Nat → AgentStateM
  revision : Nat → ClaudeOutcome
  revisionPromptExists : Bool

/-- In-memory simulation state of one `Pipeline` object, instrumented with
the sequence of `pipeline.state.json` snapshots written by `save_state` and
with invocation counters for the fix and review stages. -/
structure Sim where
  st : PipelineStateM
  agents : List (String × AgentStateM)
  fixIteration : Nat
  snapshots : List PipelineStateM
  fixCalls : Nat
  reviewCalls : Nat

def initSim (issue : Nat) : Sim :=
  { st := { status := .running, issue_number := issue, current_agent := "",
            agents_completed := [], failure_reason := "",
            aggregate_confidence := none, confidence_breakdown := [],
            completed_at := false }
    agents := []
    fixIteration := 0
    snapshots := []
    fixCalls := 0
    reviewCalls := 0 }

/-- `save_state`: overwrite the durable snapshot with the current state. -/
def saveState (s : Sim) : Sim := { s with snapshots := s.snapshots ++ [s.st] }

/-- Result of one `_run_agent` / `_run_fix_revision` call: the strings
`"continue"`, `"stop"`, `"approved"`, `"revise"`, plus a marker for a
Python exception escaping the orchestrator. -/
inductive StepResult where
  | next
  | stop
  | approved
  | revise
  | crash
deriving DecidableEq, Repr

/-- Rendering of a payload value interpolated into a log string; the
embedded control flow only reaches this with string values, and no theorem
depends on the other renderings. -/
def pyStrOf : Json → String
  | .str s => s
  | .bool true => "True"
  | .bool false => "False"
  | .null => "None"
  | .num q => toString q
  | .arr _ => "[...]"
  | .obj _ => "\x7b...\x7d"

/-- `Pipeline._run_agent`: persist a snapshot, record the agent state under
the stage-role name, then map the agent outcome to a step result, with the
stage-specific skip semantics of triage, fix and review. -/
def runAgentStep (name : String) (outcome : AgentStateM) (s : Sim) :
    StepResult × Sim :=
  let s := saveState { s with st := { s.st with current_agent := name } }
  let s := { s with agents := setAgentState s.agents name outcome }
  match outcome.status with
  | .failed =>
    let reason := if outcome.error ≠ "" then outcome.error else name ++ " failed"
    (.stop, { s with st := { s.st with
        status := .failed, failure_reason := reason,
        agents_completed := s.st.agents_completed ++ [name ++ ":failed"] } })
  | .skipped =>
    let s := { s with st := { s.st with
        agents_completed := s.st.agents_completed ++ [name ++ ":skipped"] } }
    if name = "triage" then
      let classification := (outcome.data.get "classification").getD (.str "unknown")
      (.stop, { s with st := { s.st with
          status := .skipped,
          failure_reason := "Issue classified as: " ++ pyStrOf classification } })
    else if name = "fix" then
      (.stop, { s with st := { s.st with
          status := .skipped, failure_reason := "Fix agent made no changes" } })
    else if name = "review" then
      match (outcome.data.get "verdict").getD (.str "unknown") with
      | .str v =>
        if v = "BLOCK" then
          (.stop, { s with st := { s.st with
              status := .blocked, failure_reason := "Review blocked: " ++ v } })
        else (.revise, s)
      | _ => (.revise, s)
    else (.next, s)
  | .success =>
    let s := { s with st := { s.st with
        agents_completed := s.st.agents_completed ++ [name] } }
    if name = "review" then (.approved, s) else (.next, s)

/-- The payload `_run_fix_revision` falls back to when extraction finds
nothing. -/
def revDefaultData : Json :=
  .obj [("confidence", .num (1 / 2)), ("files_changed", .arr [])]

def revisionFailed (s : Sim) (reason : String) : Sim :=
  { s with st := { s.st with status := .failed, failure_reason := reason } }

/-- `Pipeline._run_fix_revision`: persist a snapshot, require a prior review
state and the revision prompt template, run Claude, normalize the extracted
payload (falling back to the conservative default), replace the fix-role
agent state, and block only when no files changed and the payload
explicitly reports `fix_applied` false.  Prompt construction is a pure
string operation with no control-flow impact (§4.2) and is not modelled;
`.crash` marks the `float()` call raising on a malformed confidence. -/
def runFixRevision (o : Oracle) (s : Sim) : StepResult × Sim :=
  let n := s.fixIteration
  let s := saveState { s with st := { s.st with
      current_agent := "fix-revision-" ++ toString n } }
  match lookupAgent s.agents "review" with
  | none => (.stop, revisionFailed s "No review state for revision")
  | some _ =>
    if ¬ o.revisionPromptExists then
      (.stop, revisionFailed s "Missing fix-revision.md prompt")
    else
      match o.revision n with
      | .timeout msg => (.stop, revisionFailed s msg)
      | .procFailed err =>
        (.stop, revisionFailed s (if err ≠ "" then err else "Claude failed"))
      | .ok extracted =>
        let data := extracted.getD revDefaultData
        match normalizeConfidence ((data.get "confidence").getD (.num (1 / 2))) with
        | none => (.crash, s)
        | some confidence =>
          let files := mergedFileList data
          let fixState : AgentStateM :=
            { agent := "fix"
              status := if truthy files then .success else .skipped
              confidence := confidence
              data := .obj [("confidence", .num confidence),
                            ("files_changed", files),
                            ("revision", .num n),
                            ("concerns_addressed",
                              (data.get "concerns_addressed").getD (.arr [])),
                            ("suggestions_implemented",
                              (data.get "suggestions_implemented").getD (.arr [])),
                            ("full_result", data)]
              error := "" }
          let s := { s with agents := setAgentState s.agents "fix" fixState }
          if ¬ truthy files ∧ ¬ truthy ((data.get "fix_applied").getD (.bool true)) then
            let reason := match data.get "reason" with
              | some (.str r) => r
              | some v => pyStrOf v
              | none => "Could not address review feedback"
            (.stop, { s with st := { s.st with
                status := .blocked, failure_reason := reason } })
          else
            (.next, { s with st := { s.st with
                agents_completed := s.st.agents_completed
                  ++ ["fix-revision-" ++ toString n] } })

/-- One fix invocation: the normal agent on iteration 1, the revision mode
afterwards. -/
def runFixStage (o : Oracle) (s : Sim) : StepResult × Sim :=
  if s.fixIteration = 1 then runAgentStep "fix" o.fixFirst s
  else runFixRevision o s

/-- Exit of the fix-review loop: a stop result already decided the terminal
status, normal exits fall through to the post-loop success check, and a
crash aborts the run. -/
inductive LoopExit where
  | stopped (s : Sim)
  | fell (s : Sim)
  | crashed (s : Sim)

/-- The `while self.fix_iteration < MAX_FIX_REVIEW_ITERATIONS` loop of
`Pipeline.run`; the fuel argument is the number of remaining iterations
admitted by the bound. -/
def fixReviewLoop (o : Oracle) : Nat → Sim → LoopExit
  | 0, s => .fell s
  | fuel + 1, s =>
    let s := { s with fixIteration := s.fixIteration + 1, fixCalls := s.fixCalls + 1 }
    match runFixStage o s with
    | (.crash, s) => .crashed s
    | (.stop, s) => .stopped s
    | (_, s) =>
      let s := { s with reviewCalls := s.reviewCalls + 1 }
      match runAgentStep "review" (o.review s.fixIteration) s with
      | (.approved, s) => .fell s
      | (.stop, s) => .stopped s
      | (.crash, s) => .crashed s
      | (_, s) =>
        if fuel = 0 then
          .fell { s with st := { s.st with
              status := .blocked,
              failure_reason := "Review still requesting changes after "
                ++ toString MAX_FIX_REVIEW_ITERATIONS ++ " iterations" } }
        else fixReviewLoop o fuel s

/-- `Pipeline._finalize`: set the completion timestamp and persist the
final snapshot. -/
def finalizeSim (s : Sim) : Sim :=
  let st := { s.st with completed_at := true }
  { s with st := st, snapshots := s.snapshots ++ [st] }

/-- `Pipeline.run`: triage and research once, then the bounded fix-review
loop, then the success transition with aggregate-confidence computation,
then finalization.  The boolean is true when a Python exception escaped the
orchestrator, in which case no finalization happens. -/
def runPipeline (o : Oracle) (issue : Nat) : Sim × Bool :=
  let s := initSim issue
  match runAgentStep "triage" o.triage s with
  | (.stop, s) => (finalizeSim s, false)
  | (_, s) =>
    match runAgentStep "research" o.research s with
    | (.stop, s) => (finalizeSim s, false)
    | (_, s) =>
      match fixReviewLoop o MAX_FIX_REVIEW_ITERATIONS s with
      | .crashed s => (s, true)
      | .stopped s => (finalizeSim s, false)
      | .fell s =>
        if s.st.status = .running then
          let c := calcConfidence s.agents
          (finalizeSim { s with st := { s.st with
              status := .success,
              aggregate_confidence := some c.1,
              confidence_breakdown := c.2 } }, false)
        else (finalizeSim s, false)

/-! ## Concrete runs used by witnesses and counterexamples -/

def okStateM (name : String) (c : ℚ) : AgentStateM :=
  { agent := name, status := .success, confidence := c, data := .obj [], error := "" }

def skippedStateM (name : String) : AgentStateM :=
  { agent := name, status := .skipped, confidence := 0, data := .obj [], error := "" }

/-- A review outcome reporting `REQUEST_CHANGES` (non-approval is a skip,
spec §4.2/§6.2, with the verdict carried in the payload). -/
def rcReviewM : AgentStateM :=
  { agent := "review", status := .skipped, confidence := 1 / 2
    data := .obj [("verdict", .str "REQUEST_CHANGES")], error := "" }

/-- A review outcome reporting `BLOCK`. -/
def blockReviewM : AgentStateM :=
  { agent := "review", status := .skipped, confidence := 1 / 2
    data := .obj [("verdict", .str "BLOCK")], error := "" }

/-- An approving review outcome. -/
def approveReviewM (c : ℚ) : AgentStateM :=
  { agent := "review", status := .success, confidence := c
    data := .obj [("verdict", .str "APPROVE")], error := "" }

/-- A revision run whose payload changed one file. -/
def contRevisionM : ClaudeOutcome :=
  .ok (some (.obj [("confidence", .num (7 / 10)), ("files_changed", .arr [.str "a.py"])]))

/-- A run whose pre-fix stages succeed, whose first fix changes files, whose
reviews always request changes, and whose revisions keep changing files. -/
def baseOracle : Oracle :=
  { triage := okStateM "triage" (9 / 10)
    research := okStateM "research" (8 / 10)
    fixFirst := okStateM "fix" (7 / 10)
    review := fun _ => rcReviewM
    revision := fun _ => contRevisionM
    revisionPromptExists := true }

/-- Oracle for the review-always-requests-changes scenario (it is
`baseOracle`; the name records the scenario). -/
def alwaysRequestChangesOracle : Oracle := baseOracle

/-- Oracle whose review blocks on the first iteration. -/
def blockFirstOracle : Oracle := { baseOracle with review := fun _ => blockReviewM }

/-- Oracle whose first fix reports zero changed files. -/
def fixNoChangesOracle : Oracle :=
  { baseOracle with fixFirst :=
      { agent := "fix", status := .skipped, confidence := 1 / 2
        data := .obj [("confidence", .num (1 / 2)), ("files_changed", .arr [])]
        error := "" } }

/-- Oracle whose second-iteration revision reports zero changed files with
no explicit `fix_applied` signal, and whose second review approves. -/
def zeroFileRevisionOracle : Oracle :=
  { baseOracle with
    review := fun n => if n = 1 then rcReviewM else approveReviewM (85 / 100)
    revision := fun _ =>
      .ok (some (.obj [("confidence", .num (6 / 10)), ("files_changed", .arr [])])) }

/-- Oracle whose second-iteration revision reports zero changed files and
explicitly signals `fix_applied` false. -/
def explicitNoFixOracle : Oracle :=
  { baseOracle with
    revision := fun _ =>
      .ok (some (.obj [("files_changed", .arr []), ("fix_applied", .bool false)])) }

/-- Oracle for a fully successful run with the specification's example
confidence vector. -/
def exampleSuccessOracle : Oracle :=
  { baseOracle with review := fun _ => approveReviewM (85 / 100) }

/-- Oracle whose second-iteration revision payload carries a `null`
confidence, on which `float()` raises. -/
def nullConfidenceOracle : Oracle :=
  { baseOracle with
    revision := fun _ => .ok (some (.obj [("confidence", .null)])) }

/-- Oracle for the skipped-research scenario: research is skipped and the
first fix outcome is whatever `FixAgent.run` produces from that state. -/
def skippedResearchOracle (cl : ClaudeOutcome) : Oracle :=
  { baseOracle with
    research := skippedStateM "research"
    fixFirst := executeM "fix"
      ((fixAgentRun (some (skippedStateM "research")) cl).toOption.getD
        (.failed, .obj [])) }

/-- The four-stage agent map of the spec's worked confidence example. -/
def exampleAgentsC5 : List (String × AgentStateM) :=
  [("triage", okStateM "triage" (9 / 10)), ("research", okStateM "research" (8 / 10)),
   ("fix", okStateM "fix" (7 / 10)), ("review", okStateM "review" (85 / 100))]

/-! ## Claim-shaped predicates -/

/-- A review `AgentState` that reports `REQUEST_CHANGES`: non-approval skip
status with that verdict in the payload. -/
def reviewRequestsChanges (st : AgentStateM) : Bool :=
  (match st.status with | .skipped => true | _ => false) &&
  (match st.data.get "verdict" with
   | some (.str v) => v = "REQUEST_CHANGES"
   | _ => false)

/-- A revision-mode Claude outcome on which `_run_fix_revision` neither
fails, crashes nor blocks: the process succeeded, the payload's confidence
normalizes, and either files changed or no explicit `fix_applied` false is
reported. -/
def revisionContinues (c : ClaudeOutcome) : Bool :=
  match c with
  | .ok extracted =>
    let data := extracted.getD revDefaultData
    (normalizeConfidence ((data.get "confidence").getD (.num (1 / 2)))).isSome &&
    (truthy (mergedFileList data) ||
      truthy ((data.get "fix_applied").getD (.bool true)))
  | _ => false

/-- Did the extractor return a decoded object containing the field (as
opposed to `None` or a raised exception)? -/
def extractsFieldObject (output field : String) : Bool :=
  match extract_json_from_output output field with
  | .ok (some j) => hasKey j field
  | _ => false

/-! ## Concrete extractor inputs used by witnesses and counterexamples -/

/-- Raw output holding a malformed fenced block followed by a valid fenced
block whose object carries the required field inside nested braces. -/
def cex1out : String :=
  "```json\n\x7b\"bad\": \x7d\n```\n```json\n\x7b\"classification\": \x7b\"x\": 1\x7d\x7d\n```\n"

def cex1block : Chars := "\x7b\"classification\": \x7b\"x\": 1\x7d\x7d".data

/-- Raw output whose earlier fenced block carries the required field inside
nested braces and whose later fenced block is valid JSON without it. -/
def cex2out : String :=
  "```json\n\x7b\"classification\": \x7b\"a\": 1\x7d\x7d\n```\n```json\n\x7b\"other\": 2\x7d\n```\n"

def cex2early : Chars := "\x7b\"classification\": \x7b\"a\": 1\x7d\x7d".data

def cex2late : Chars := "\x7b\"other\": 2\x7d".data

/-- One assistant event record carrying one text segment (the text is given
in its raw JSON-escaped spelling). -/
def assistantLine (escapedText : String) : String :=
  "\x7b\"type\": \"assistant\", \"message\": \x7b\"content\": [\x7b\"type\": \"text\", \"text\": \""
    ++ escapedText ++ "\"\x7d]\x7d\x7d"

/-- Stream output with a single assistant segment holding one fenced block
with the required field. -/
def w1out : String :=
  assistantLine "```json\\n\x7b\\\"classification\\\": 1\x7d\\n```"

def w1seg : Chars := "```json\n\x7b\"classification\": 1\x7d\n```".data

def w1cand : Chars := "\x7b\"classification\": 1\x7d".data

def w1json : Json := .obj [("classification", .num 1)]

/-- Stream output with two assistant segments: the earlier one's fenced
block carries the field, the later one's fenced block is valid JSON without
it. -/
def w2out : String :=
  assistantLine "```json\\n\x7b\\\"classification\\\": \x7b\\\"a\\\": 1\x7d\x7d\\n```" ++ "\n"
    ++ assistantLine "```json\\n\x7b\\\"other\\\": 2\x7d\\n```"

def w2seg1 : Chars := "```json\n\x7b\"classification\": \x7b\"a\": 1\x7d\x7d\n```".data

def w2seg2 : Chars := "```json\n\x7b\"other\": 2\x7d\n```".data

def w2json : Json := .obj [("classification", .obj [("a", .num 1)])]

/-- The simulation state carried by a loop exit. -/
def LoopExit.sim : LoopExit → Sim
  | .stopped s => s
  | .fell s => s
  | .crashed s => s

/-- The payload `FixAgent.run` returns when it skips for lack of changed
files. -/
def skipFixPayload : Json :=
  .obj [("confidence", .num (1 / 2)), ("files_changed", .arr []),
        ("summary", .str "No changes made"), ("tests_added", .arr [])]

/-- Oracle whose first fix outcome is the wrapped result of a fix run whose
extraction found nothing. -/
def noExtractionOracle : Oracle :=
  { baseOracle with fixFirst := executeM "fix" (.skipped, skipFixPayload) }

/-- Oracle whose second-iteration revision output yields no extractable
payload. -/
def revExtractionFailOracle : Oracle :=
  { baseOracle with revision := fun _ => .ok none }

/-- A mid-run simulation state carrying a stored review state, as found at
the start of any revision iteration. -/
def simWithReview : Sim :=
  { initSim 1 with agents := [("review", rcReviewM)], fixIteration := 2 }

/-- The payload of a revision that changed nothing and explicitly reports
`fix_applied` false. -/
def zeroFilesNoFixPayload : Json :=
  .obj [("files_changed", .arr []), ("fix_applied", .bool false)]

/-- A mid-run snapshot: written while the pipeline is still running, so not
yet terminal, timestampless and without aggregate confidence. -/
def goodBody (p : PipelineStateM) : Prop :=
  p.status = .running ∧ p.completed_at = false ∧ p.aggregate_confidence = none

/-! ## Support lemmas: stepping the state machine -/

lemma runAgentStep_counts (name : String) (outcome : AgentStateM) (s : Sim) :
    ((runAgentStep name outcome s).2).fixCalls = s.fixCalls ∧
    ((runAgentStep name outcome s).2).reviewCalls = s.reviewCalls ∧
    ((runAgentStep name outcome s).2).fixIteration = s.fixIteration := by
  unfold runAgentStep saveState
  rcases outcome.status <;> refine ⟨?_, ?_, ?_⟩ <;> (repeat' split) <;> rfl

lemma runFixRevision_counts (o : Oracle) (s : Sim) :
    ((runFixRevision o s).2).fixCalls = s.fixCalls ∧
    ((runFixRevision o s).2).reviewCalls = s.reviewCalls ∧
    ((runFixRevision o s).2).fixIteration = s.fixIteration := by
  simp only [runFixRevision, saveState, revisionFailed]
  refine ⟨?_, ?_, ?_⟩ <;> (repeat' split) <;> rfl

lemma runAgentStep_success_next (name : String) (outcome : AgentStateM) (s : Sim)
    (h : outcome.status = .success) (hn : ¬ name = "review") :
    ∃ s', runAgentStep name outcome s = (.next, s') ∧
      s'.st.status = s.st.status ∧
      s'.st.completed_at = s.st.completed_at ∧
      s'.st.aggregate_confidence = s.st.aggregate_confidence ∧
      s'.st.failure_reason = s.st.failure_reason ∧
      s'.st.agents_completed = s.st.agents_completed ++ [name] ∧
      s'.agents = setAgentState s.agents name outcome ∧
      s'.fixIteration = s.fixIteration ∧
      s'.fixCalls = s.fixCalls ∧ s'.reviewCalls = s.reviewCalls := by
  simp only [runAgentStep, saveState, h]
  rw [if_neg hn]
  exact ⟨_, rfl, rfl, rfl, rfl, rfl, rfl, rfl, rfl, rfl, rfl⟩


lemma runAgentStep_failed_stop (name : String) (outcome : AgentStateM) (s : Sim)
    (h : outcome.status = .failed) :
    ∃ s', runAgentStep name outcome s = (.stop, s') ∧
      s'.st.status = .failed ∧
      s'.st.failure_reason = (if outcome.error ≠ "" then outcome.error else name ++ " failed") ∧
      s'.st.completed_at = s.st.completed_at ∧
      s'.st.aggregate_confidence = s.st.aggregate_confidence ∧
      s'.st.agents_completed = s.st.agents_completed ++ [name ++ ":failed"] ∧
      s'.fixIteration = s.fixIteration ∧
      s'.fixCalls = s.fixCalls ∧ s'.reviewCalls = s.reviewCalls := by
  simp only [runAgentStep, saveState, h]
  exact ⟨_, rfl, rfl, rfl, rfl, rfl, rfl, rfl, rfl, rfl⟩

lemma runAgentStep_research_skipped_next (outcome : AgentStateM) (s : Sim)
    (h : outcome.status = .skipped) :
    ∃ s', runAgentStep "research" outcome s = (.next, s') ∧
      s'.st.status = s.st.status ∧
      s'.st.completed_at = s.st.completed_at ∧
      s'.st.aggregate_confidence = s.st.aggregate_confidence ∧
      s'.st.agents_completed = s.st.agents_completed ++ ["research:skipped"] ∧
      s'.agents = setAgentState s.agents "research" outcome ∧
      s'.fixIteration = s.fixIteration ∧
      s'.fixCalls = s.fixCalls ∧ s'.reviewCalls = s.reviewCalls := by
  simp only [runAgentStep, saveState, h, reduceIte]
  exact ⟨_, rfl, rfl, rfl, rfl, rfl, rfl, rfl, rfl, rfl⟩

lemma runAgentStep_fix_skipped_stop (outcome : AgentStateM) (s : Sim)
    (h : outcome.status = .skipped) :
    ∃ s', runAgentStep "fix" outcome s = (.stop, s') ∧
      s'.st.status = .skipped ∧
      s'.st.failure_reason = "Fix agent made no changes" ∧
      s'.st.completed_at = s.st.completed_at ∧
      s'.st.aggregate_confidence = s.st.aggregate_confidence ∧
      s'.fixIteration = s.fixIteration ∧
      s'.fixCalls = s.fixCalls ∧ s'.reviewCalls = s.reviewCalls := by
  simp only [runAgentStep, saveState, h, reduceIte]
  exact ⟨_, rfl, rfl, rfl, rfl, rfl, rfl, rfl, rfl⟩

lemma reviewRequestsChanges_spec (st : AgentStateM)
    (h : reviewRequestsChanges st = true) :
    st.status = .skipped ∧ st.data.get "verdict" = some (.str "REQUEST_CHANGES") := by
  unfold reviewRequestsChanges at h
  rw [Bool.and_eq_true] at h
  obtain ⟨h1, h2⟩ := h
  refine ⟨?_, ?_⟩
  · cases hs : st.status <;> rw [hs] at h1 <;> simp_all
  · rcases hv : st.data.get "verdict" with _ | j
    · rw [hv] at h2; simp at h2
    · rw [hv] at h2
      cases j <;> simp at h2
      subst h2; rfl

lemma runAgentStep_review_revise (outcome : AgentStateM) (s : Sim)
    (h : reviewRequestsChanges outcome = true) :
    ∃ s', runAgentStep "review" outcome s = (.revise, s') ∧
      s'.st.status = s.st.status ∧
      s'.st.completed_at = s.st.completed_at ∧
      s'.st.aggregate_confidence = s.st.aggregate_confidence ∧
      s'.st.failure_reason = s.st.failure_reason ∧
      s'.st.agents_completed = s.st.agents_completed ++ ["review:skipped"] ∧
      s'.agents = setAgentState s.agents "review" outcome ∧
      s'.fixIteration = s.fixIteration ∧
      s'.fixCalls = s.fixCalls ∧ s'.reviewCalls = s.reviewCalls := by
  obtain ⟨hs, hv⟩ := reviewRequestsChanges_spec outcome h
  simp only [runAgentStep, saveState, hs, hv, Option.getD_some, reduceIte]
  exact ⟨_, rfl, rfl, rfl, rfl, rfl, rfl, rfl, rfl, rfl, rfl⟩

lemma runAgentStep_review_block (outcome : AgentStateM) (s : Sim)
    (hs : outcome.status = .skipped)
    (hv : outcome.data.get "verdict" = some (.str "BLOCK")) :
    ∃ s', runAgentStep "review" outcome s = (.stop, s') ∧
      s'.st.status = .blocked ∧
      s'.st.failure_reason = "Review blocked: BLOCK" ∧
      s'.st.completed_at = s.st.completed_at ∧
      s'.st.aggregate_confidence = s.st.aggregate_confidence ∧
      s'.fixIteration = s.fixIteration ∧
      s'.fixCalls = s.fixCalls ∧ s'.reviewCalls = s.reviewCalls := by
  simp only [runAgentStep, saveState, hs, hv, Option.getD_some, reduceIte]
  exact ⟨_, rfl, rfl, rfl, rfl, rfl, rfl, rfl, rfl⟩

lemma runAgentStep_review_approved (outcome : AgentStateM) (s : Sim)
    (h : outcome.status = .success) :
    ∃ s', runAgentStep "review" outcome s = (.approved, s') ∧
      s'.st.status = s.st.status ∧
      s'.st.completed_at = s.st.completed_at ∧
      s'.st.aggregate_confidence = s.st.aggregate_confidence ∧
      s'.st.agents_completed = s.st.agents_completed ++ ["review"] ∧
      s'.agents = setAgentState s.agents "review" outcome ∧
      s'.fixIteration = s.fixIteration ∧
      s'.fixCalls = s.fixCalls ∧ s'.reviewCalls = s.reviewCalls := by
  simp only [runAgentStep, saveState, h, reduceIte]
  exact ⟨_, rfl, rfl, rfl, rfl, rfl, rfl, rfl, rfl, rfl⟩

lemma runFixRevision_next (o : Oracle) (s : Sim) (rv : AgentStateM)
    (hp : o.revisionPromptExists = true)
    (hr : lookupAgent s.agents "review" = some rv)
    (hc : revisionContinues (o.revision s.fixIteration) = true) :
    ∃ s', runFixRevision o s = (.next, s') ∧
      s'.st.status = s.st.status ∧
      s'.st.completed_at = s.st.completed_at ∧
      s'.st.aggregate_confidence = s.st.aggregate_confidence ∧
      s'.st.failure_reason = s.st.failure_reason ∧
      s'.fixIteration = s.fixIteration ∧
      s'.fixCalls = s.fixCalls ∧ s'.reviewCalls = s.reviewCalls ∧
      (∃ fs, s'.agents = setAgentState s.agents "fix" fs) := by
  rcases hrev : o.revision s.fixIteration with msg | err | extracted
  · rw [hrev] at hc; simp [revisionContinues] at hc
  · rw [hrev] at hc; simp [revisionContinues] at hc
  · rw [hrev] at hc
    unfold revisionContinues at hc
    rw [Bool.and_eq_true] at hc
    obtain ⟨hconf, hbranch⟩ := hc
    rcases hq : normalizeConfidence
        (((extracted.getD revDefaultData).get "confidence").getD (.num (1 / 2))) with _ | q
    · rw [hq] at hconf; simp at hconf
    · have hcond : ¬ (¬ truthy (mergedFileList (extracted.getD revDefaultData)) = true ∧
          ¬ truthy (((extracted.getD revDefaultData).get "fix_applied").getD (.bool true)) = true) := by
        rw [Bool.or_eq_true] at hbranch
        rcases hbranch with hb | hb
        · exact fun hcontra => hcontra.1 hb
        · exact fun hcontra => hcontra.2 hb
      simp only [runFixRevision, saveState, hp, hr, hrev, hq, Option.getD_some,
        not_true, eq_self_iff_true, reduceIte]
      rw [if_neg hcond]
      exact ⟨_, rfl, rfl, rfl, rfl, rfl, rfl, rfl, rfl, _, rfl⟩

lemma runFixRevision_blocked (o : Oracle) (s : Sim) (rv : AgentStateM) (d : Json) (q : ℚ)
    (hp : o.revisionPromptExists = true)
    (hr : lookupAgent s.agents "review" = some rv)
    (hok : o.revision s.fixIteration = .ok (some d))
    (hq : normalizeConfidence ((d.get "confidence").getD (.num (1 / 2))) = some q)
    (hfiles : truthy (mergedFileList d) = false)
    (hfa : truthy ((d.get "fix_applied").getD (.bool true)) = false) :
    ∃ s', runFixRevision o s = (.stop, s') ∧
      s'.st.status = .blocked ∧
      s'.st.completed_at = s.st.completed_at ∧
      s'.st.aggregate_confidence = s.st.aggregate_confidence ∧
      s'.fixIteration = s.fixIteration ∧
      s'.fixCalls = s.fixCalls ∧ s'.reviewCalls = s.reviewCalls := by
  simp only [runFixRevision, saveState, hp, hr, hok, Option.getD_some, hq,
    not_true, eq_self_iff_true, reduceIte]
  rw [if_pos ⟨(by simp [hfiles] : ¬ truthy (mergedFileList d) = true),
    (by simp [hfa] : ¬ truthy ((d.get "fix_applied").getD (.bool true)) = true)⟩]
  exact ⟨_, rfl, rfl, rfl, rfl, rfl, rfl, rfl⟩

lemma find?_cons_eq {α : Type} (p : α → Bool) (a : α) (l : List α) :
    List.find? p (a :: l) = if p a then some a else List.find? p l := by
  by_cases h : p a = true
  · rw [if_pos h]; exact List.find?_cons_of_pos _ h
  · rw [if_neg h]; exact List.find?_cons_of_neg _ h

lemma find_map_set_self (n : String) (st : AgentStateM)
    (a : List (String × AgentStateM)) (h : a.any (fun p => p.1 == n) = true) :
    List.find? (fun p => p.1 == n)
      (a.map (fun p => if p.1 == n then (n, st) else p)) = some (n, st) := by
  induction a with
  | nil => simp at h
  | cons q rest ih =>
    by_cases hq : (q.1 == n) = true
    · simp only [List.map_cons, if_pos hq]
      rw [find?_cons_eq]
      simp
    · simp only [List.map_cons, if_neg hq]
      rw [find?_cons_eq, if_neg (by simpa using hq)]
      apply ih
      simp only [List.any_cons, Bool.or_eq_true] at h
      rcases h with h | h
      · exact absurd h hq
      · exact h

lemma find_append_set_self (n : String) (st : AgentStateM)
    (a : List (String × AgentStateM)) (h : ¬ a.any (fun p => p.1 == n) = true) :
    List.find? (fun p => p.1 == n) (a ++ [(n, st)]) = some (n, st) := by
  induction a with
  | nil =>
    simp only [List.nil_append]
    rw [find?_cons_eq]
    simp
  | cons q rest ih =>
    simp only [List.any_cons, Bool.or_eq_true] at h
    push_neg at h
    rw [List.cons_append, find?_cons_eq, if_neg (by simpa using h.1)]
    exact ih h.2

lemma lookupAgent_set_self (a : List (String × AgentStateM)) (n : String)
    (st : AgentStateM) : lookupAgent (setAgentState a n st) n = some st := by
  unfold setAgentState lookupAgent
  by_cases hany : a.any (fun p => p.1 == n) = true
  · rw [if_pos hany, find_map_set_self n st a hany]; rfl
  · rw [if_neg hany, find_append_set_self n st a hany]; rfl

lemma find_append_single_other (n m : String) (st : AgentStateM)
    (a : List (String × AgentStateM)) (hnm : (n == m) = false) :
    List.find? (fun p => p.1 == m) (a ++ [(n, st)]) =
      List.find? (fun p => p.1 == m) a := by
  induction a with
  | nil =>
    simp only [List.nil_append]
    rw [find?_cons_eq, if_neg (by simp [hnm])]
  | cons q rest ih =>
    rw [List.cons_append, find?_cons_eq, find?_cons_eq]
    by_cases hq : (q.1 == m) = true
    · rw [if_pos hq, if_pos hq]
    · rw [if_neg hq, if_neg hq]
      exact ih

lemma find_map_other (n m : String) (st : AgentStateM)
    (a : List (String × AgentStateM)) (hnm : (n == m) = false) :
    List.find? (fun p => p.1 == m)
        (a.map (fun p => if p.1 == n then (n, st) else p)) =
      List.find? (fun p => p.1 == m) a := by
  induction a with
  | nil => rfl
  | cons q rest ih =>
    by_cases hq : (q.1 == n) = true
    · have hqm : (q.1 == m) = false := by
        have hz : q.1 = n := beq_iff_eq.mp hq
        rw [hz]; exact hnm
      simp only [List.map_cons, if_pos hq]
      rw [find?_cons_eq, if_neg (by simp [hnm]), find?_cons_eq, if_neg (by simp [hqm])]
      exact ih
    · simp only [List.map_cons, if_neg hq]
      rw [find?_cons_eq, find?_cons_eq]
      by_cases hqm : (q.1 == m) = true
      · rw [if_pos hqm, if_pos hqm]
      · rw [if_neg hqm, if_neg hqm]
        exact ih

lemma lookupAgent_set_other (a : List (String × AgentStateM)) (n m : String)
    (st : AgentStateM) (h : ¬ m = n) :
    lookupAgent (setAgentState a n st) m = lookupAgent a m := by
  have hnm : (n == m) = false := by
    rcases hx : (n == m) with _ | _
    · rfl
    · exact absurd (beq_iff_eq.mp hx).symm h
  unfold setAgentState lookupAgent
  by_cases hany : a.any (fun p => p.1 == n) = true
  · rw [if_pos hany, find_map_other n m st a hnm]
  · rw [if_neg hany, find_append_single_other n m st a hnm]

lemma runFixStage_counts (o : Oracle) (s : Sim) :
    ((runFixStage o s).2).fixCalls = s.fixCalls ∧
    ((runFixStage o s).2).reviewCalls = s.reviewCalls := by
  unfold runFixStage
  split
  · exact ⟨(runAgentStep_counts _ _ _).1, (runAgentStep_counts _ _ _).2.1⟩
  · exact ⟨(runFixRevision_counts _ _).1, (runFixRevision_counts _ _).2.1⟩

lemma fixReviewLoop_counts_le (o : Oracle) :
    ∀ fuel s, ((fixReviewLoop o fuel s).sim).fixCalls ≤ s.fixCalls + fuel ∧
      ((fixReviewLoop o fuel s).sim).reviewCalls ≤ s.reviewCalls + fuel := by
  intro fuel
  induction fuel with
  | zero => intro s; simp [fixReviewLoop, LoopExit.sim]
  | succ n ih =>
    intro s
    simp only [fixReviewLoop]
    have cfs := runFixStage_counts o
      { s with fixIteration := s.fixIteration + 1, fixCalls := s.fixCalls + 1 }
    dsimp only at cfs
    split
    · rename_i s5 heq
      rw [heq] at cfs
      dsimp only at cfs
      dsimp only [LoopExit.sim]
      omega
    · rename_i s5 heq
      rw [heq] at cfs
      dsimp only at cfs
      dsimp only [LoopExit.sim]
      omega
    · rename_i fst s5 hni1 hni2 heq
      rw [heq] at cfs
      dsimp only at cfs
      have crs := runAgentStep_counts "review" (o.review s5.fixIteration)
        { s5 with reviewCalls := s5.reviewCalls + 1 }
      dsimp only at crs
      split
      · rename_i s6 heq2
        rw [heq2] at crs
        dsimp only at crs
        dsimp only [LoopExit.sim]
        omega
      · rename_i s6 heq2
        rw [heq2] at crs
        dsimp only at crs
        dsimp only [LoopExit.sim]
        omega
      · rename_i s6 heq2
        rw [heq2] at crs
        dsimp only at crs
        dsimp only [LoopExit.sim]
        omega
      · rename_i fst2 s6 hy1 hy2 hy3 heq2
        rw [heq2] at crs
        dsimp only at crs
        split
        · dsimp only [LoopExit.sim]
          omega
        · have := ih s6
          omega

lemma fixReviewLoop_iter_revise (o : Oracle) (fuel : Nat) (s s3 s4 : Sim)
    (hfs : runFixStage o
      { s with fixIteration := s.fixIteration + 1, fixCalls := s.fixCalls + 1 } = (.next, s3))
    (hrs : runAgentStep "review" (o.review s3.fixIteration)
      { s3 with reviewCalls := s3.reviewCalls + 1 } = (.revise, s4)) :
    fixReviewLoop o (fuel + 1) s =
      if fuel = 0 then
        .fell { s4 with st := { s4.st with
          status := .blocked
          failure_reason := "Review still requesting changes after "
            ++ toString MAX_FIX_REVIEW_ITERATIONS ++ " iterations" } }
      else fixReviewLoop o fuel s4 := by
  simp only [fixReviewLoop]
  rw [hfs]
  dsimp only
  rw [hrs]

lemma fixReviewLoop_iter_fixstop (o : Oracle) (fuel : Nat) (s s3 : Sim)
    (hfs : runFixStage o
      { s with fixIteration := s.fixIteration + 1, fixCalls := s.fixCalls + 1 } = (.stop, s3)) :
    fixReviewLoop o (fuel + 1) s = .stopped s3 := by
  simp only [fixReviewLoop]
  rw [hfs]

lemma fixReviewLoop_iter_reviewstop (o : Oracle) (fuel : Nat) (s s3 s4 : Sim)
    (hfs : runFixStage o
      { s with fixIteration := s.fixIteration + 1, fixCalls := s.fixCalls + 1 } = (.next, s3))
    (hrs : runAgentStep "review" (o.review s3.fixIteration)
      { s3 with reviewCalls := s3.reviewCalls + 1 } = (.stop, s4)) :
    fixReviewLoop o (fuel + 1) s = .stopped s4 := by
  simp only [fixReviewLoop]
  rw [hfs]
  dsimp only
  rw [hrs]

lemma fixReviewLoop_iter_approved (o : Oracle) (fuel : Nat) (s s3 s4 : Sim)
    (hfs : runFixStage o
      { s with fixIteration := s.fixIteration + 1, fixCalls := s.fixCalls + 1 } = (.next, s3))
    (hrs : runAgentStep "review" (o.review s3.fixIteration)
      { s3 with reviewCalls := s3.reviewCalls + 1 } = (.approved, s4)) :
    fixReviewLoop o (fuel + 1) s = .fell s4 := by
  simp only [fixReviewLoop]
  rw [hfs]
  dsimp only
  rw [hrs]

lemma fixReviewLoop_iter_crash (o : Oracle) (fuel : Nat) (s s3 : Sim)
    (hfs : runFixStage o
      { s with fixIteration := s.fixIteration + 1, fixCalls := s.fixCalls + 1 } = (.crash, s3)) :
    fixReviewLoop o (fuel + 1) s = .crashed s3 := by
  simp only [fixReviewLoop]
  rw [hfs]

lemma alwaysRC_run (o : Oracle) (i : Nat)
    (ht : o.triage.status = .success)
    (hr : o.research.status = .success)
    (hf : o.fixFirst.status = .success)
    (hp : o.revisionPromptExists = true)
    (hrc : ∀ n, reviewRequestsChanges (o.review n) = true)
    (hcont : ∀ n, revisionContinues (o.revision n) = true) :
    (runPipeline o i).1.st.status = .blocked ∧
    (runPipeline o i).1.fixCalls = 3 ∧
    (runPipeline o i).1.reviewCalls = 3 ∧
    (runPipeline o i).1.st.failure_reason =
      "Review still requesting changes after 3 iterations" ∧
    (runPipeline o i).2 = false := by
  obtain ⟨s1, e1, p1s, p1c, p1a, p1f, p1ac, p1ag, p1i, p1fc, p1rc⟩ :=
    runAgentStep_success_next "triage" o.triage (initSim i) ht (by decide)
  obtain ⟨s2, e2, p2s, p2c, p2a, p2f, p2ac, p2ag, p2i, p2fc, p2rc⟩ :=
    runAgentStep_success_next "research" o.research s1 hr (by decide)
  have h2i : s2.fixIteration = 0 := by rw [p2i, p1i]; rfl
  have h2fc : s2.fixCalls = 0 := by rw [p2fc, p1fc]; rfl
  have h2rc : s2.reviewCalls = 0 := by rw [p2rc, p1rc]; rfl
  have h2st : s2.st.status = PipelineStatus.running := by rw [p2s, p1s]; rfl
  obtain ⟨s3, e3, p3s, p3c, p3a, p3f, p3ac, p3ag, p3i, p3fc, p3rc⟩ :=
    runAgentStep_success_next "fix" o.fixFirst
      { s2 with fixIteration := s2.fixIteration + 1, fixCalls := s2.fixCalls + 1 }
      hf (by decide)
  have hfs1 : runFixStage o
      { s2 with fixIteration := s2.fixIteration + 1, fixCalls := s2.fixCalls + 1 }
      = (.next, s3) := by
    unfold runFixStage
    rw [if_pos (by simp [h2i])]
    exact e3
  obtain ⟨s4, e4, p4s, p4c, p4a, p4f, p4ac, p4ag, p4i, p4fc, p4rc⟩ :=
    runAgentStep_review_revise (o.review s3.fixIteration)
      { s3 with reviewCalls := s3.reviewCalls + 1 } (hrc _)
  have h4i : s4.fixIteration = 1 := by simp [p4i, p3i, h2i]
  have h4fc : s4.fixCalls = 1 := by simp [p4fc, p3fc, h2fc]
  have h4rc : s4.reviewCalls = 1 := by simp [p4rc, p3rc, h2rc]
  have h4st : s4.st.status = PipelineStatus.running := by simp [p4s, p3s, h2st]
  have h4ag : lookupAgent s4.agents "review" = some (o.review s3.fixIteration) := by
    rw [p4ag]; exact lookupAgent_set_self _ _ _
  obtain ⟨s5, e5, q5s, q5c, q5a, q5f, q5i, q5fc, q5rc, fs5, q5ag⟩ :=
    runFixRevision_next o
      { s4 with fixIteration := s4.fixIteration + 1, fixCalls := s4.fixCalls + 1 }
      (o.review s3.fixIteration) hp h4ag (hcont _)
  have hfs2 : runFixStage o
      { s4 with fixIteration := s4.fixIteration + 1, fixCalls := s4.fixCalls + 1 }
      = (.next, s5) := by
    unfold runFixStage
    rw [if_neg (by simp [h4i])]
    exact e5
  obtain ⟨s6, e6, p6s, p6c, p6a, p6f, p6ac, p6ag, p6i, p6fc, p6rc⟩ :=
    runAgentStep_review_revise (o.review s5.fixIteration)
      { s5 with reviewCalls := s5.reviewCalls + 1 } (hrc _)
  have h6i : s6.fixIteration = 2 := by simp [p6i, q5i, h4i]
  have h6fc : s6.fixCalls = 2 := by simp [p6fc, q5fc, h4fc]
  have h6rc : s6.reviewCalls = 2 := by simp [p6rc, q5rc, h4rc]
  have h6st : s6.st.status = PipelineStatus.running := by simp [p6s, q5s, h4st]
  have h6ag : lookupAgent s6.agents "review" = some (o.review s5.fixIteration) := by
    rw [p6ag]; exact lookupAgent_set_self _ _ _
  obtain ⟨s7, e7, q7s, q7c, q7a, q7f, q7i, q7fc, q7rc, fs7, q7ag⟩ :=
    runFixRevision_next o
      { s6 with fixIteration := s6.fixIteration + 1, fixCalls := s6.fixCalls + 1 }
      (o.review s5.fixIteration) hp h6ag (hcont _)
  have hfs3 : runFixStage o
      { s6 with fixIteration := s6.fixIteration + 1, fixCalls := s6.fixCalls + 1 }
      = (.next, s7) := by
    unfold runFixStage
    rw [if_neg (by simp [h6i])]
    exact e7
  obtain ⟨s8, e8, p8s, p8c, p8a, p8f, p8ac, p8ag, p8i, p8fc, p8rc⟩ :=
    runAgentStep_review_revise (o.review s7.fixIteration)
      { s7 with reviewCalls := s7.reviewCalls + 1 } (hrc _)
  have h8fc : s8.fixCalls = 3 := by simp [p8fc, q7fc, h6fc]
  have h8rc : s8.reviewCalls = 3 := by simp [p8rc, q7rc, h6rc]
  have L1 : fixReviewLoop o 3 s2 = fixReviewLoop o 2 s4 := by
    have hx := fixReviewLoop_iter_revise o 2 s2 s3 s4 hfs1 e4
    rw [if_neg (by decide)] at hx
    exact hx
  have L2 : fixReviewLoop o 2 s4 = fixReviewLoop o 1 s6 := by
    have hx := fixReviewLoop_iter_revise o 1 s4 s5 s6 hfs2 e6
    rw [if_neg (by decide)] at hx
    exact hx
  have L3 : fixReviewLoop o 1 s6 = .fell
      { s8 with st := { s8.st with
        status := .blocked
        failure_reason := "Review still requesting changes after "
          ++ toString MAX_FIX_REVIEW_ITERATIONS ++ " iterations" } } := by
    have hx := fixReviewLoop_iter_revise o 0 s6 s7 s8 hfs3 e8
    rw [if_pos rfl] at hx
    exact hx
  have hloop : fixReviewLoop o MAX_FIX_REVIEW_ITERATIONS s2 = .fell
      { s8 with st := { s8.st with
        status := .blocked
        failure_reason := "Review still requesting changes after "
          ++ toString MAX_FIX_REVIEW_ITERATIONS ++ " iterations" } } := by
    show fixReviewLoop o 3 s2 = _
    rw [L1, L2, L3]
  simp only [runPipeline]
  rw [e1]
  dsimp only
  rw [e2]
  dsimp only
  rw [hloop]
  dsimp only
  rw [if_neg (by decide)]
  refine ⟨rfl, ?_, ?_, rfl, rfl⟩
  · dsimp only [finalizeSim]
    exact h8fc
  · dsimp only [finalizeSim]
    exact h8rc

lemma runAgentStep_midgood (name : String) (outcome : AgentStateM) (s : Sim)
    (hrun : s.st.status = .running) (hc : s.st.completed_at = false)
    (ha : s.st.aggregate_confidence = none)
    (hsnap : ∀ p ∈ s.snapshots, goodBody p) :
    (∀ p ∈ ((runAgentStep name outcome s).2).snapshots, goodBody p) ∧
    ((runAgentStep name outcome s).2).st.completed_at = false ∧
    ((runAgentStep name outcome s).2).st.aggregate_confidence = none ∧
    ((runAgentStep name outcome s).1 = .stop →
      ((runAgentStep name outcome s).2).st.status ≠ .running ∧
      ((runAgentStep name outcome s).2).st.status ≠ .success) ∧
    ((runAgentStep name outcome s).1 ≠ .stop →
      ((runAgentStep name outcome s).2).st.status = .running) := by
  have hgood : ∀ p ∈ s.snapshots ++ [{ s.st with current_agent := name }], goodBody p := by
    intro p hp
    rcases List.mem_append.mp hp with hp | hp
    · exact hsnap p hp
    · rw [List.mem_singleton] at hp
      subst hp
      exact ⟨hrun, hc, ha⟩
  simp only [runAgentStep, saveState]
  rcases outcome.status <;> (repeat' split) <;>
    exact ⟨hgood, hc, ha, fun hh => by simp_all, fun hh => by simp_all⟩

lemma runFixRevision_midgood (o : Oracle) (s : Sim)
    (hrun : s.st.status = .running) (hc : s.st.completed_at = false)
    (ha : s.st.aggregate_confidence = none)
    (hsnap : ∀ p ∈ s.snapshots, goodBody p) :
    (∀ p ∈ ((runFixRevision o s).2).snapshots, goodBody p) ∧
    ((runFixRevision o s).2).st.completed_at = false ∧
    ((runFixRevision o s).2).st.aggregate_confidence = none ∧
    ((runFixRevision o s).1 = .stop →
      ((runFixRevision o s).2).st.status ≠ .running ∧
      ((runFixRevision o s).2).st.status ≠ .success) ∧
    ((runFixRevision o s).1 ≠ .stop →
      ((runFixRevision o s).2).st.status = .running) := by
  have hgood : ∀ p ∈ s.snapshots ++
      [{ s.st with current_agent := "fix-revision-" ++ toString s.fixIteration }],
      goodBody p := by
    intro p hp
    rcases List.mem_append.mp hp with hp | hp
    · exact hsnap p hp
    · rw [List.mem_singleton] at hp
      subst hp
      exact ⟨hrun, hc, ha⟩
  simp only [runFixRevision, saveState, revisionFailed]
  (repeat' split) <;>
    exact ⟨hgood, hc, ha, fun hh => by simp_all, fun hh => by simp_all⟩

lemma runFixStage_midgood (o : Oracle) (s : Sim)
    (hrun : s.st.status = .running) (hc : s.st.completed_at = false)
    (ha : s.st.aggregate_confidence = none)
    (hsnap : ∀ p ∈ s.snapshots, goodBody p) :
    (∀ p ∈ ((runFixStage o s).2).snapshots, goodBody p) ∧
    ((runFixStage o s).2).st.completed_at = false ∧
    ((runFixStage o s).2).st.aggregate_confidence = none ∧
    ((runFixStage o s).1 = .stop →
      ((runFixStage o s).2).st.status ≠ .running ∧
      ((runFixStage o s).2).st.status ≠ .success) ∧
    ((runFixStage o s).1 ≠ .stop →
      ((runFixStage o s).2).st.status = .running) := by
  unfold runFixStage
  split
  · exact runAgentStep_midgood _ _ s hrun hc ha hsnap
  · exact runFixRevision_midgood o s hrun hc ha hsnap

lemma fixReviewLoop_mid (o : Oracle) : ∀ fuel s,
    s.st.status = .running → s.st.completed_at = false →
    s.st.aggregate_confidence = none → (∀ p ∈ s.snapshots, goodBody p) →
    (∀ s', fixReviewLoop o fuel s = .stopped s' →
      (∀ p ∈ s'.snapshots, goodBody p) ∧ s'.st.completed_at = false ∧
      s'.st.aggregate_confidence = none ∧
      s'.st.status ≠ .running ∧ s'.st.status ≠ .success) ∧
    (∀ s', fixReviewLoop o fuel s = .fell s' →
      (∀ p ∈ s'.snapshots, goodBody p) ∧ s'.st.completed_at = false ∧
      s'.st.aggregate_confidence = none ∧
      (s'.st.status = .running ∨
        (s'.st.status ≠ .running ∧ s'.st.status ≠ .success))) := by
  intro fuel
  induction fuel with
  | zero =>
    intro s hrun hc ha hsnap
    constructor
    · intro s' he; simp [fixReviewLoop] at he
    · intro s' he
      simp only [fixReviewLoop, LoopExit.fell.injEq] at he
      subst he
      exact ⟨hsnap, hc, ha, Or.inl hrun⟩
  | succ n ih =>
    intro s hrun hc ha hsnap
    have m1 := runFixStage_midgood o
      { s with fixIteration := s.fixIteration + 1, fixCalls := s.fixCalls + 1 }
      hrun hc ha hsnap
    rcases hfs : runFixStage o
        { s with fixIteration := s.fixIteration + 1, fixCalls := s.fixCalls + 1 }
      with ⟨r1, s3⟩
    rw [hfs] at m1
    dsimp only at m1
    obtain ⟨m1g, m1c, m1a, m1stop, m1run⟩ := m1
    simp only [fixReviewLoop]
    rw [hfs]
    cases r1 with
    | crash =>
      constructor <;> (intro s' he; simp at he)
    | stop =>
      constructor
      · intro s' he
        simp only [LoopExit.stopped.injEq] at he
        subst he
        exact ⟨m1g, m1c, m1a, (m1stop rfl).1, (m1stop rfl).2⟩
      · intro s' he; simp at he
    | next =>
      have hs3run : s3.st.status = .running := m1run (by simp)
      dsimp only
      have m2 := runAgentStep_midgood "review" (o.review s3.fixIteration)
        { s3 with reviewCalls := s3.reviewCalls + 1 } hs3run m1c m1a m1g
      rcases hrs : runAgentStep "review" (o.review s3.fixIteration)
          { s3 with reviewCalls := s3.reviewCalls + 1 } with ⟨r2, s5⟩
      rw [hrs] at m2
      dsimp only at m2
      obtain ⟨m2g, m2c, m2a, m2stop, m2run⟩ := m2
      cases r2 with
      | approved =>
        constructor
        · intro s' he; simp at he
        · intro s' he
          simp only [LoopExit.fell.injEq] at he
          subst he
          exact ⟨m2g, m2c, m2a, Or.inl (m2run (by simp))⟩
      | stop =>
        constructor
        · intro s' he
          simp only [LoopExit.stopped.injEq] at he
          subst he
          exact ⟨m2g, m2c, m2a, (m2stop rfl).1, (m2stop rfl).2⟩
        · intro s' he; simp at he
      | crash =>
        constructor <;> (intro s' he; simp at he)
      | next =>
        dsimp only
        by_cases hn : n = 0
        · rw [if_pos hn]
          constructor
          · intro s' he; simp at he
          · intro s' he
            simp only [LoopExit.fell.injEq] at he
            subst he
            exact ⟨m2g, m2c, m2a, Or.inr ⟨by simp, by simp⟩⟩
        · rw [if_neg hn]
          exact ih s5 (m2run (by simp)) m2c m2a m2g
      | revise =>
        dsimp only
        by_cases hn : n = 0
        · rw [if_pos hn]
          constructor
          · intro s' he; simp at he
          · intro s' he
            simp only [LoopExit.fell.injEq] at he
            subst he
            exact ⟨m2g, m2c, m2a, Or.inr ⟨by simp, by simp⟩⟩
        · rw [if_neg hn]
          exact ih s5 (m2run (by simp)) m2c m2a m2g
    | approved =>
      have hs3run : s3.st.status = .running := m1run (by simp)
      dsimp only
      have m2 := runAgentStep_midgood "review" (o.review s3.fixIteration)
        { s3 with reviewCalls := s3.reviewCalls + 1 } hs3run m1c m1a m1g
      rcases hrs : runAgentStep "review" (o.review s3.fixIteration)
          { s3 with reviewCalls := s3.reviewCalls + 1 } with ⟨r2, s5⟩
      rw [hrs] at m2
      dsimp only at m2
      obtain ⟨m2g, m2c, m2a, m2stop, m2run⟩ := m2
      cases r2 with
      | approved =>
        constructor
        · intro s' he; simp at he
        · intro s' he
          simp only [LoopExit.fell.injEq] at he
          subst he
          exact ⟨m2g, m2c, m2a, Or.inl (m2run (by simp))⟩
      | stop =>
        constructor
        · intro s' he
          simp only [LoopExit.stopped.injEq] at he
          subst he
          exact ⟨m2g, m2c, m2a, (m2stop rfl).1, (m2stop rfl).2⟩
        · intro s' he; simp at he
      | crash =>
        constructor <;> (intro s' he; simp at he)
      | next =>
        dsimp only
        by_cases hn : n = 0
        · rw [if_pos hn]
          constructor
          · intro s' he; simp at he
          · intro s' he
            simp only [LoopExit.fell.injEq] at he
            subst he
            exact ⟨m2g, m2c, m2a, Or.inr ⟨by simp, by simp⟩⟩
        · rw [if_neg hn]
          exact ih s5 (m2run (by simp)) m2c m2a m2g
      | revise =>
        dsimp only
        by_cases hn : n = 0
        · rw [if_pos hn]
          constructor
          · intro s' he; simp at he
          · intro s' he
            simp only [LoopExit.fell.injEq] at he
            subst he
            exact ⟨m2g, m2c, m2a, Or.inr ⟨by simp, by simp⟩⟩
        · rw [if_neg hn]
          exact ih s5 (m2run (by simp)) m2c m2a m2g
    | revise =>
      have hs3run : s3.st.status = .running := m1run (by simp)
      dsimp only
      have m2 := runAgentStep_midgood "review" (o.review s3.fixIteration)
        { s3 with reviewCalls := s3.reviewCalls + 1 } hs3run m1c m1a m1g
      rcases hrs : runAgentStep "review" (o.review s3.fixIteration)
          { s3 with reviewCalls := s3.reviewCalls + 1 } with ⟨r2, s5⟩
      rw [hrs] at m2
      dsimp only at m2
      obtain ⟨m2g, m2c, m2a, m2stop, m2run⟩ := m2
      cases r2 with
      | approved =>
        constructor
        · intro s' he; simp at he
        · intro s' he
          simp only [LoopExit.fell.injEq] at he
          subst he
          exact ⟨m2g, m2c, m2a, Or.inl (m2run (by simp))⟩
      | stop =>
        constructor
        · intro s' he
          simp only [LoopExit.stopped.injEq] at he
          subst he
          exact ⟨m2g, m2c, m2a, (m2stop rfl).1, (m2stop rfl).2⟩
        · intro s' he; simp at he
      | crash =>
        constructor <;> (intro s' he; simp at he)
      | next =>
        dsimp only
        by_cases hn : n = 0
        · rw [if_pos hn]
          constructor
          · intro s' he; simp at he
          · intro s' he
            simp only [LoopExit.fell.injEq] at he
            subst he
            exact ⟨m2g, m2c, m2a, Or.inr ⟨by simp, by simp⟩⟩
        · rw [if_neg hn]
          exact ih s5 (m2run (by simp)) m2c m2a m2g
      | revise =>
        dsimp only
        by_cases hn : n = 0
        · rw [if_pos hn]
          constructor
          · intro s' he; simp at he
          · intro s' he
            simp only [LoopExit.fell.injEq] at he
            subst he
            exact ⟨m2g, m2c, m2a, Or.inr ⟨by simp, by simp⟩⟩
        · rw [if_neg hn]
          exact ih s5 (m2run (by simp)) m2c m2a m2g

lemma runPipeline_shape (o : Oracle) (i : Nat)
    (h : (runPipeline o i).2 = false) :
    (∃ body fin, (runPipeline o i).1.snapshots = body ++ [fin] ∧
      (∀ p ∈ body, goodBody p) ∧
      fin.completed_at = true ∧ fin.status ≠ .running ∧
      (fin.aggregate_confidence.isSome ↔ fin.status = .success)) ∧
    ((runPipeline o i).1.st.aggregate_confidence.isSome ↔
      (runPipeline o i).1.st.status = .success) := by
  simp only [runPipeline] at h ⊢
  have m1 := runAgentStep_midgood "triage" o.triage (initSim i) rfl rfl rfl
    (by intro p hp; simp [initSim] at hp)
  rcases e1 : runAgentStep "triage" o.triage (initSim i) with ⟨r1, s1⟩
  rw [e1] at m1 h
  dsimp only at m1
  obtain ⟨m1g, m1c, m1a, m1stop, m1run⟩ := m1
  cases r1
  case stop =>
    dsimp only at h ⊢
    refine ⟨⟨s1.snapshots, { s1.st with completed_at := true }, rfl, m1g, rfl,
      (m1stop rfl).1, ?_⟩, ?_⟩
    · have hagg : ({ s1.st with completed_at := true } : PipelineStateM).aggregate_confidence
          = none := m1a
      rw [hagg]
      simp [(m1stop rfl).2]
    · dsimp only [finalizeSim]
      rw [m1a]
      simp [(m1stop rfl).2]
  all_goals (
    dsimp only at h ⊢
    have hs1run : s1.st.status = .running := m1run (by simp)
    have m2 := runAgentStep_midgood "research" o.research s1 hs1run m1c m1a m1g
    rcases e2 : runAgentStep "research" o.research s1 with ⟨r2, s2⟩
    rw [e2] at m2 h
    dsimp only at m2
    obtain ⟨m2g, m2c, m2a, m2stop, m2run⟩ := m2
    cases r2
    case stop =>
      dsimp only at h ⊢
      refine ⟨⟨s2.snapshots, { s2.st with completed_at := true }, rfl, m2g, rfl,
        (m2stop rfl).1, ?_⟩, ?_⟩
      · have hagg : ({ s2.st with completed_at := true } : PipelineStateM).aggregate_confidence
            = none := m2a
        rw [hagg]
        simp [(m2stop rfl).2]
      · dsimp only [finalizeSim]
        rw [m2a]
        simp [(m2stop rfl).2]
    all_goals (
      dsimp only at h ⊢
      have hs2run : s2.st.status = .running := m2run (by simp)
      have mz := fixReviewLoop_mid o MAX_FIX_REVIEW_ITERATIONS s2 hs2run m2c m2a m2g
      rcases hL : fixReviewLoop o MAX_FIX_REVIEW_ITERATIONS s2 with s3 | s3 | s3
      case stopped =>
        rw [hL] at h
        obtain ⟨mg, mc, ma, mnr, mns⟩ := mz.1 s3 hL
        dsimp only at h ⊢
        refine ⟨⟨s3.snapshots, { s3.st with completed_at := true }, rfl, mg, rfl, mnr, ?_⟩, ?_⟩
        · have hagg : ({ s3.st with completed_at := true } : PipelineStateM).aggregate_confidence
              = none := ma
          rw [hagg]
          simp [mns]
        · dsimp only [finalizeSim]
          rw [ma]
          simp [mns]
      case fell =>
        rw [hL] at h
        obtain ⟨mg, mc, ma, mor⟩ := mz.2 s3 hL
        dsimp only at h ⊢
        rcases mor with hrunning | ⟨hnr, hns⟩
        · rw [if_pos hrunning] at h ⊢
          dsimp only [finalizeSim]
          refine ⟨⟨s3.snapshots, _, rfl, mg, rfl, by simp, by simp⟩, by simp⟩
        · rw [if_neg hnr] at h ⊢
          refine ⟨⟨s3.snapshots, { s3.st with completed_at := true }, rfl, mg, rfl, hnr, ?_⟩, ?_⟩
          · have hagg : ({ s3.st with completed_at := true } : PipelineStateM).aggregate_confidence
                = none := ma
            rw [hagg]
            simp [hns]
          · dsimp only [finalizeSim]
            rw [ma]
            simp [hns]
      case crashed =>
        rw [hL] at h
        dsimp only at h
        simp at h))

lemma firstFixSkip_run (o : Oracle) (i : Nat)
    (ht : o.triage.status = .success) (hr : o.research.status = .success)
    (hfk : o.fixFirst.status = .skipped) :
    (runPipeline o i).1.st.status = .skipped ∧
    (runPipeline o i).1.reviewCalls = 0 ∧
    (runPipeline o i).1.st.failure_reason = "Fix agent made no changes" ∧
    (runPipeline o i).1.fixCalls = 1 := by
  obtain ⟨s1, e1, p1s, p1c, p1a, p1f, p1ac, p1ag, p1i, p1fc, p1rc⟩ :=
    runAgentStep_success_next "triage" o.triage (initSim i) ht (by decide)
  obtain ⟨s2, e2, p2s, p2c, p2a, p2f, p2ac, p2ag, p2i, p2fc, p2rc⟩ :=
    runAgentStep_success_next "research" o.research s1 hr (by decide)
  have h2i : s2.fixIteration = 0 := by rw [p2i, p1i]; rfl
  have h2fc : s2.fixCalls = 0 := by rw [p2fc, p1fc]; rfl
  have h2rc : s2.reviewCalls = 0 := by rw [p2rc, p1rc]; rfl
  obtain ⟨s3, e3, q3s, q3f, q3c, q3a, q3i, q3fc, q3rc⟩ :=
    runAgentStep_fix_skipped_stop o.fixFirst
      { s2 with fixIteration := s2.fixIteration + 1, fixCalls := s2.fixCalls + 1 } hfk
  have hfs1 : runFixStage o
      { s2 with fixIteration := s2.fixIteration + 1, fixCalls := s2.fixCalls + 1 }
      = (.stop, s3) := by
    unfold runFixStage
    rw [if_pos (by simp [h2i])]
    exact e3
  have hloop : fixReviewLoop o MAX_FIX_REVIEW_ITERATIONS s2 = .stopped s3 := by
    show fixReviewLoop o (2 + 1) s2 = _
    exact fixReviewLoop_iter_fixstop o 2 s2 s3 hfs1
  simp only [runPipeline]
  rw [e1]
  dsimp only
  rw [e2]
  dsimp only
  rw [hloop]
  dsimp only [finalizeSim]
  exact ⟨q3s, by simp [q3rc, h2rc], q3f, by simp [q3fc, h2fc]⟩

lemma explicitNoFixRevision_run (o : Oracle) (i : Nat) (d : Json) (q : ℚ)
    (ht : o.triage.status = .success) (hr : o.research.status = .success)
    (hf : o.fixFirst.status = .success) (hp : o.revisionPromptExists = true)
    (hrc1 : reviewRequestsChanges (o.review 1) = true)
    (hok : o.revision 2 = .ok (some d))
    (hq : normalizeConfidence ((d.get "confidence").getD (.num (1 / 2))) = some q)
    (hfiles : truthy (mergedFileList d) = false)
    (hfa : truthy ((d.get "fix_applied").getD (.bool true)) = false) :
    (runPipeline o i).1.st.status = .blocked ∧
    (runPipeline o i).1.fixCalls = 2 ∧
    (runPipeline o i).1.reviewCalls = 1 := by
  obtain ⟨s1, e1, p1s, p1c, p1a, p1f, p1ac, p1ag, p1i, p1fc, p1rc⟩ :=
    runAgentStep_success_next "triage" o.triage (initSim i) ht (by decide)
  obtain ⟨s2, e2, p2s, p2c, p2a, p2f, p2ac, p2ag, p2i, p2fc, p2rc⟩ :=
    runAgentStep_success_next "research" o.research s1 hr (by decide)
  have h2i : s2.fixIteration = 0 := by rw [p2i, p1i]; rfl
  have h2fc : s2.fixCalls = 0 := by rw [p2fc, p1fc]; rfl
  have h2rc : s2.reviewCalls = 0 := by rw [p2rc, p1rc]; rfl
  obtain ⟨s3, e3, p3s, p3c, p3a, p3f, p3ac, p3ag, p3i, p3fc, p3rc⟩ :=
    runAgentStep_success_next "fix" o.fixFirst
      { s2 with fixIteration := s2.fixIteration + 1, fixCalls := s2.fixCalls + 1 }
      hf (by decide)
  have hfs1 : runFixStage o
      { s2 with fixIteration := s2.fixIteration + 1, fixCalls := s2.fixCalls + 1 }
      = (.next, s3) := by
    unfold runFixStage
    rw [if_pos (by simp [h2i])]
    exact e3
  have h3i : s3.fixIteration = 1 := by simp [p3i, h2i]
  have hrc1x : reviewRequestsChanges (o.review s3.fixIteration) = true := by
    rw [h3i]; exact hrc1
  obtain ⟨s4, e4, p4s, p4c, p4a, p4f, p4ac, p4ag, p4i, p4fc, p4rc⟩ :=
    runAgentStep_review_revise (o.review s3.fixIteration)
      { s3 with reviewCalls := s3.reviewCalls + 1 } hrc1x
  have h4i : s4.fixIteration = 1 := by simp [p4i, p3i, h2i]
  have h4fc : s4.fixCalls = 1 := by simp [p4fc, p3fc, h2fc]
  have h4rc : s4.reviewCalls = 1 := by simp [p4rc, p3rc, h2rc]
  have h4ag : lookupAgent s4.agents "review" = some (o.review s3.fixIteration) := by
    rw [p4ag]; exact lookupAgent_set_self _ _ _
  have hfi2 : ({ s4 with fixIteration := s4.fixIteration + 1, fixCalls := s4.fixCalls + 1 } : Sim).fixIteration = 2 := by
    simp [h4i]
  obtain ⟨s5, e5, q5s, q5c, q5a, q5i, q5fc, q5rc⟩ :=
    runFixRevision_blocked o
      { s4 with fixIteration := s4.fixIteration + 1, fixCalls := s4.fixCalls + 1 }
      (o.review s3.fixIteration) d q hp h4ag (by rw [hfi2]; exact hok) hq hfiles hfa
  have hfs2 : runFixStage o
      { s4 with fixIteration := s4.fixIteration + 1, fixCalls := s4.fixCalls + 1 }
      = (.stop, s5) := by
    unfold runFixStage
    rw [if_neg (by simp [h4i])]
    exact e5
  have L1 : fixReviewLoop o 3 s2 = fixReviewLoop o 2 s4 := by
    have hx := fixReviewLoop_iter_revise o 2 s2 s3 s4 hfs1 e4
    rw [if_neg (by decide)] at hx
    exact hx
  have L2 : fixReviewLoop o 2 s4 = .stopped s5 := by
    show fixReviewLoop o (1 + 1) s4 = _
    exact fixReviewLoop_iter_fixstop o 1 s4 s5 hfs2
  have hloop : fixReviewLoop o MAX_FIX_REVIEW_ITERATIONS s2 = .stopped s5 := by
    show fixReviewLoop o 3 s2 = _
    rw [L1, L2]
  simp only [runPipeline]
  rw [e1]
  dsimp only
  rw [e2]
  dsimp only
  rw [hloop]
  dsimp only [finalizeSim]
  exact ⟨q5s, by simp [q5fc, h4fc], by simp [q5rc, h4rc]⟩

lemma researchSkip_run (o : Oracle) (i : Nat)
    (ht : o.triage.status = .success)
    (hrk : o.research.status = .skipped)
    (hfs : o.fixFirst.status = .failed)
    (hfe : o.fixFirst.error = "Research not completed") :
    (runPipeline o i).1.st.status = .failed ∧
    (runPipeline o i).1.st.failure_reason = "Research not completed" ∧
    (runPipeline o i).1.st.agents_completed = ["triage", "research:skipped", "fix:failed"] ∧
    (runPipeline o i).1.fixCalls = 1 ∧
    (runPipeline o i).1.reviewCalls = 0 ∧
    (runPipeline o i).2 = false := by
  obtain ⟨s1, e1, p1s, p1c, p1a, p1f, p1ac, p1ag, p1i, p1fc, p1rc⟩ :=
    runAgentStep_success_next "triage" o.triage (initSim i) ht (by decide)
  obtain ⟨s2, e2, p2s, p2c, p2a, p2ac, p2ag, p2i, p2fc, p2rc⟩ :=
    runAgentStep_research_skipped_next o.research s1 hrk
  have h2i : s2.fixIteration = 0 := by rw [p2i, p1i]; rfl
  have h2fc : s2.fixCalls = 0 := by rw [p2fc, p1fc]; rfl
  have h2rc : s2.reviewCalls = 0 := by rw [p2rc, p1rc]; rfl
  have h2ac : s2.st.agents_completed = ["triage", "research:skipped"] := by
    rw [p2ac, p1ac]; rfl
  obtain ⟨s3, e3, q3s, q3f, q3c, q3a, q3ac, q3i, q3fc, q3rc⟩ :=
    runAgentStep_failed_stop "fix" o.fixFirst
      { s2 with fixIteration := s2.fixIteration + 1, fixCalls := s2.fixCalls + 1 }
      hfs
  have hfs1 : runFixStage o
      { s2 with fixIteration := s2.fixIteration + 1, fixCalls := s2.fixCalls + 1 }
      = (.stop, s3) := by
    unfold runFixStage
    rw [if_pos (by simp [h2i])]
    exact e3
  have hloop : fixReviewLoop o MAX_FIX_REVIEW_ITERATIONS s2 = .stopped s3 := by
    show fixReviewLoop o (2 + 1) s2 = _
    exact fixReviewLoop_iter_fixstop o 2 s2 s3 hfs1
  simp only [runPipeline]
  rw [e1]
  dsimp only
  rw [e2]
  dsimp only
  rw [hloop]
  dsimp only [finalizeSim]
  refine ⟨q3s, ?_, ?_, ?_, ?_, rfl⟩
  · rw [q3f, hfe]
    rw [if_pos (by decide)]
  · rw [q3ac]
    dsimp only
    rw [h2ac]
    rfl
  · rw [q3fc]
    dsimp only
    rw [h2fc]
  · rw [q3rc]
    dsimp only
    rw [h2rc]

lemma blockFirst_run (o : Oracle) (i : Nat)
    (ht : o.triage.status = .success) (hr : o.research.status = .success)
    (hf : o.fixFirst.status = .success)
    (hbs : (o.review 1).status = .skipped)
    (hbv : (o.review 1).data.get "verdict" = some (.str "BLOCK")) :
    (runPipeline o i).1.st.status = .blocked ∧
    (runPipeline o i).1.st.failure_reason = "Review blocked: BLOCK" ∧
    (runPipeline o i).1.fixCalls = 1 ∧
    (runPipeline o i).1.reviewCalls = 1 ∧
    (runPipeline o i).2 = false := by
  obtain ⟨s1, e1, p1s, p1c, p1a, p1f, p1ac, p1ag, p1i, p1fc, p1rc⟩ :=
    runAgentStep_success_next "triage" o.triage (initSim i) ht (by decide)
  obtain ⟨s2, e2, p2s, p2c, p2a, p2f, p2ac, p2ag, p2i, p2fc, p2rc⟩ :=
    runAgentStep_success_next "research" o.research s1 hr (by decide)
  have h2i : s2.fixIteration = 0 := by rw [p2i, p1i]; rfl
  have h2fc : s2.fixCalls = 0 := by rw [p2fc, p1fc]; rfl
  have h2rc : s2.reviewCalls = 0 := by rw [p2rc, p1rc]; rfl
  obtain ⟨s3, e3, p3s, p3c, p3a, p3f, p3ac, p3ag, p3i, p3fc, p3rc⟩ :=
    runAgentStep_success_next "fix" o.fixFirst
      { s2 with fixIteration := s2.fixIteration + 1, fixCalls := s2.fixCalls + 1 }
      hf (by decide)
  have hfs1 : runFixStage o
      { s2 with fixIteration := s2.fixIteration + 1, fixCalls := s2.fixCalls + 1 }
      = (.next, s3) := by
    unfold runFixStage
    rw [if_pos (by simp [h2i])]
    exact e3
  have h3i : s3.fixIteration = 1 := by simp [p3i, h2i]
  have h3fc : s3.fixCalls = 1 := by simp [p3fc, h2fc]
  have h3rc : s3.reviewCalls = 0 := by simp [p3rc, h2rc]
  obtain ⟨s4, e4, q4s, q4f, q4c, q4a, q4i, q4fc, q4rc⟩ :=
    runAgentStep_review_block (o.review s3.fixIteration)
      { s3 with reviewCalls := s3.reviewCalls + 1 }
      (by rw [h3i]; exact hbs) (by rw [h3i]; exact hbv)
  have hloop : fixReviewLoop o MAX_FIX_REVIEW_ITERATIONS s2 = .stopped s4 := by
    show fixReviewLoop o (2 + 1) s2 = _
    exact fixReviewLoop_iter_reviewstop o 2 s2 s3 s4 hfs1 e4
  simp only [runPipeline]
  rw [e1]
  dsimp only
  rw [e2]
  dsimp only
  rw [hloop]
  dsimp only [finalizeSim]
  refine ⟨q4s, q4f, ?_, ?_, rfl⟩
  · rw [q4fc]
    dsimp only
    rw [h3fc]
  · rw [q4rc]
    dsimp only
    rw [h3rc]

/-! ## Support lemmas: the extractor -/

lemma findSomeMem {α β : Type} (f : α → Option β) :
    ∀ (l : List α) (b : β), l.findSome? f = some b → ∃ a ∈ l, f a = some b := by
  intro l
  induction l with
  | nil => intro b h; simp [List.findSome?] at h
  | cons a l ih =>
    intro b h
    simp only [List.findSome?] at h
    rcases hf : f a with _ | b'
    · rw [hf] at h
      dsimp only at h
      obtain ⟨x, hx, hfx⟩ := ih b h
      exact ⟨x, List.mem_cons_of_mem a hx, hfx⟩
    · rw [hf] at h
      dsimp only at h
      cases h
      exact ⟨a, List.mem_cons_self a l, hf⟩

lemma findSomeComplete {α β : Type} (f : α → Option β) :
    ∀ (l : List α) (a : α), a ∈ l → ∀ b, f a = some b →
      ∃ b', l.findSome? f = some b' := by
  intro l
  induction l with
  | nil => intro a ha b hb; cases ha
  | cons x l ih =>
    intro a ha b hb
    rcases hf : f x with _ | c
    · cases ha with
      | head =>
        rw [hb] at hf
        cases hf
      | tail _ ha2 =>
        obtain ⟨b', hb'⟩ := ih a ha2 b hb
        refine ⟨b', ?_⟩
        simp only [List.findSome?, hf]
        exact hb'
    · refine ⟨c, ?_⟩
      simp only [List.findSome?, hf]

lemma acceptCandidate_hasKey (field : String) (c : Chars) (j : Json)
    (h : acceptCandidate field c = some j) : hasKey j field = true := by
  unfold acceptCandidate at h
  rcases hl : json_loadsChars c with _ | j'
  · rw [hl] at h; cases h
  · rw [hl] at h
    dsimp only at h
    by_cases hk : hasKey j' field = true
    · rw [if_pos hk] at h
      cases h
      exact hk
    · rw [if_neg hk] at h
      cases h

lemma scanSegment_hasKey (field : String) (t : Chars) (j : Json)
    (h : scanSegmentChars field t = some j) : hasKey j field = true := by
  unfold scanSegmentChars at h
  obtain ⟨c, _, hacc⟩ := findSomeMem _ _ _ h
  exact acceptCandidate_hasKey field c j hacc

lemma scanTextsRev_hasKey (field : String) :
    ∀ (l : List (Option Chars)) (j : Json),
      scanTextsRev field l = .ok (some j) → hasKey j field = true := by
  intro l
  induction l with
  | nil => intro j h; simp [scanTextsRev] at h
  | cons x l ih =>
    intro j h
    cases x with
    | none => simp [scanTextsRev] at h
    | some t =>
      simp only [scanTextsRev] at h
      rcases hs : scanSegmentChars field t with _ | j'
      · rw [hs] at h
        dsimp only at h
        exact ih j h
      · rw [hs] at h
        dsimp only at h
        simp only [Except.ok.injEq, Option.some.injEq] at h
        exact h ▸ scanSegment_hasKey field t j' hs

lemma extract_hasKey (output field : String) (j : Json)
    (h : extract_json_from_output output field = .ok (some j)) :
    hasKey j field = true := by
  simp only [extract_json_from_output] at h
  rcases hc : collectTexts output with e | items
  · rw [hc] at h; cases h
  · rw [hc] at h
    dsimp only at h
    rcases hs : scanTextsRev field items.reverse with e | r
    · rw [hs] at h
      dsimp only at h
      cases h
    · rw [hs] at h
      cases r with
      | some j1 =>
        dsimp only at h
        simp only [Except.ok.injEq, Option.some.injEq] at h
        exact h ▸ scanTextsRev_hasKey field items.reverse j1 hs
      | none =>
        dsimp only at h
        rcases h2 : scanSegmentChars field (pyUnescape output.data) with _ | j2
        · rw [h2] at h
          dsimp only at h
          rcases h3 : (rawFieldMatches field (pyUnescape output.data)).reverse.findSome?
              (acceptCandidate field) with _ | j3
          · rw [h3] at h
            dsimp only at h
            cases h
          · rw [h3] at h
            dsimp only at h
            simp only [Except.ok.injEq, Option.some.injEq] at h
            obtain ⟨c, _, hacc⟩ := findSomeMem _ _ _ h3
            exact h ▸ acceptCandidate_hasKey field c j3 hacc
        · rw [h2] at h
          dsimp only at h
          simp only [Except.ok.injEq, Option.some.injEq] at h
          exact h ▸ scanSegment_hasKey field (pyUnescape output.data) j2 h2

lemma scanSegment_of_candidate (field : String) (t : Chars) (c : Chars) (j : Json)
    (hc : c ∈ findallFenced t) (hacc : acceptCandidate field c = some j) :
    ∃ j', scanSegmentChars field t = some j' := by
  unfold scanSegmentChars
  exact findSomeComplete _ _ c (List.mem_reverse.mpr hc) j hacc

lemma scanTextsRev_of_segment (field : String) :
    ∀ (l : List (Option Chars)), (∀ x ∈ l, x ≠ none) →
      ∀ (t : Chars), some t ∈ l → ∀ j, scanSegmentChars field t = some j →
      ∃ j', scanTextsRev field l = .ok (some j') := by
  intro l
  induction l with
  | nil => intro _ t ht; cases ht
  | cons x l ih =>
    intro hall t ht j hj
    cases x with
    | none => exact absurd rfl (hall none (List.mem_cons_self _ _))
    | some u =>
      rcases hs : scanSegmentChars field u with _ | j'
      · cases ht with
        | head =>
          rw [hj] at hs
          cases hs
        | tail _ ht2 =>
          obtain ⟨j', hj'⟩ := ih (fun x hx => hall x (List.mem_cons_of_mem _ hx)) t ht2 j hj
          refine ⟨j', ?_⟩
          simp only [scanTextsRev, hs]
          exact hj'
      · refine ⟨j', ?_⟩
        simp only [scanTextsRev, hs]

lemma scanTextsRev_append_reject (field : String) :
    ∀ (l1 l2 : List (Option Chars)),
      (∀ c : Chars, some c ∈ l1 → scanSegmentChars field c = none) →
      (∀ x ∈ l1, x ≠ none) →
      scanTextsRev field (l1 ++ l2) = scanTextsRev field l2 := by
  intro l1
  induction l1 with
  | nil => intro l2 _ _; rfl
  | cons x l1 ih =>
    intro l2 hrej hall
    cases x with
    | none => exact absurd rfl (hall none (List.mem_cons_self _ _))
    | some u =>
      have hu : scanSegmentChars field u = none := hrej u (List.mem_cons_self _ _)
      simp only [List.cons_append, scanTextsRev, hu]
      exact ih l2 (fun c hc => hrej c (List.mem_cons_of_mem _ hc))
        (fun x hx => hall x (List.mem_cons_of_mem _ hx))

lemma extract_from_segment (output field : String)
    (pre post : List (Option Chars)) (t : Chars) (j : Json)
    (hc : collectTexts output = .ok (pre ++ some t :: post))
    (hrej : ∀ c : Chars, some c ∈ post → scanSegmentChars field c = none)
    (hall : ∀ x ∈ post, x ≠ none)
    (hts : scanSegmentChars field t = some j) :
    extract_json_from_output output field = .ok (some j) := by
  simp only [extract_json_from_output, hc]
  have hrev : scanTextsRev field (pre ++ some t :: post).reverse = .ok (some j) := by
    rw [List.reverse_append, List.reverse_cons, List.append_assoc]
    rw [scanTextsRev_append_reject field post.reverse ([some t] ++ pre.reverse)
      (fun c hcm => hrej c (List.mem_reverse.mp hcm))
      (fun x hx => hall x (List.mem_reverse.mp hx))]
    simp only [List.singleton_append, scanTextsRev, hts]
  rw [hrev]

lemma skipWsIdx_ge (s : Chars) (i : Nat) : i ≤ skipWsIdx s i :=
  Nat.le_add_right _ _

lemma matchEnd_ge (s : Chars) (m e : Nat) (h : matchEnd s m = some e) :
    m + 4 ≤ e := by
  simp only [matchEnd] at h
  by_cases hb : s.get? m = some '\x7d'
  · rw [if_pos hb] at h
    by_cases hk : isAt s (skipWsIdx s (m + 1)) "```" = true
    · rw [if_pos hk] at h
      injection h with h1
      have hge := skipWsIdx_ge s (m + 1)
      omega
    · rw [if_neg hk] at h
      cases h
  · rw [if_neg hb] at h
    cases h

lemma findLastM_spec (s : Chars) (lo : Nat) :
    ∀ (n m e : Nat), findLastM s lo n = some (m, e) →
      lo ≤ m ∧ m < n ∧ matchEnd s m = some e ∧
      ∀ m', m < m' → m' < n → matchEnd s m' = none := by
  intro n
  induction n with
  | zero => intro m e h; cases h
  | succ k ih =>
    intro m e h
    simp only [findLastM] at h
    by_cases hlt : k < lo
    · rw [if_pos hlt] at h
      cases h
    · rw [if_neg hlt] at h
      rcases hm : matchEnd s k with _ | e'
      · rw [hm] at h
        dsimp only at h
        obtain ⟨h1, h2, h3, h4⟩ := ih m e h
        refine ⟨h1, Nat.lt_succ_of_lt h2, h3, ?_⟩
        intro m' hm1 hm2
        rcases Nat.lt_succ_iff_lt_or_eq.mp hm2 with h5 | h5
        · exact h4 m' hm1 h5
        · subst h5
          exact hm
      · rw [hm] at h
        dsimp only at h
        simp only [Option.some.injEq, Prod.mk.injEq] at h
        obtain ⟨hm1, he1⟩ := h
        subst hm1
        subst he1
        refine ⟨Nat.le_of_not_lt hlt, Nat.lt_succ_self k, hm, ?_⟩
        intro m' h1 h2
        exact ((Nat.lt_irrefl k) (Nat.lt_of_lt_of_le h1 (Nat.lt_succ_iff.mp h2))).elim

lemma findLastM_none (s : Chars) (lo : Nat) :
    ∀ (n : Nat), (∀ m', lo ≤ m' → m' < n → matchEnd s m' = none) →
      findLastM s lo n = none := by
  intro n
  induction n with
  | zero => intro _; rfl
  | succ k ih =>
    intro h
    simp only [findLastM]
    by_cases hlt : k < lo
    · rw [if_pos hlt]
    · rw [if_neg hlt]
      rw [h k (Nat.le_of_not_lt hlt) (Nat.lt_succ_self k)]
      exact ih (fun m' h1 h2 => h m' h1 (Nat.lt_succ_of_lt h2))

lemma fenceMatchAt_last (s : Chars) (i : Nat) (cap : Chars) (e : Nat)
    (h : fenceMatchAt s i = some (cap, e)) :
    ∀ i', e ≤ i' → fenceMatchAt s i' = none := by
  simp only [fenceMatchAt] at h
  by_cases ha : isAt s i "```json" = true
  · rw [if_pos ha] at h
    by_cases hb : s.get? (skipWsIdx s (i + 7)) = some '\x7b'
    · rw [if_pos hb] at h
      rcases hf : findLastM s (skipWsIdx s (i + 7) + 2) s.length with _ | me
      · rw [hf] at h
        cases h
      · rw [hf] at h
        obtain ⟨m0, e0⟩ := me
        dsimp only at h
        simp only [Option.some.injEq, Prod.mk.injEq] at h
        obtain ⟨hcap, he⟩ := h
        subst he
        obtain ⟨hlo, hlt, hme, hmax⟩ := findLastM_spec s _ _ _ _ hf
        have hge := matchEnd_ge s m0 e0 hme
        intro i' hi'
        simp only [fenceMatchAt]
        by_cases ha' : isAt s i' "```json" = true
        · rw [if_pos ha']
          by_cases hb' : s.get? (skipWsIdx s (i' + 7)) = some '\x7b'
          · rw [if_pos hb']
            have hskip := skipWsIdx_ge s (i' + 7)
            rw [findLastM_none s (skipWsIdx s (i' + 7) + 2) s.length
              (fun m' h1 h2 => hmax m' (by omega) h2)]
          · rw [if_neg hb']
        · rw [if_neg ha']
    · rw [if_neg hb] at h
      cases h
  · rw [if_neg ha] at h
    cases h

lemma findallFencedAux_nil (s : Chars) :
    ∀ (fuel i : Nat), (∀ i', i ≤ i' → fenceMatchAt s i' = none) →
      findallFencedAux s fuel i = [] := by
  intro fuel
  induction fuel with
  | zero => intro i _; rfl
  | succ k ih =>
    intro i h
    simp only [findallFencedAux]
    by_cases hge : i ≥ s.length
    · rw [if_pos hge]
    · rw [if_neg hge]
      rw [h i (Nat.le_refl i)]
      exact ih (i + 1) (fun i' hi' => h i' (Nat.le_of_succ_le hi'))

lemma findallFenced_length_le_one (s : Chars) : (findallFenced s).length ≤ 1 := by
  suffices h : ∀ fuel i, (findallFencedAux s fuel i).length ≤ 1 by exact h _ 0
  intro fuel
  induction fuel with
  | zero => intro i; simp [findallFencedAux]
  | succ k ih =>
    intro i
    simp only [findallFencedAux]
    by_cases hge : i ≥ s.length
    · rw [if_pos hge]
      simp
    · rw [if_neg hge]
      rcases hf : fenceMatchAt s i with _ | ⟨cap, e⟩
      · exact ih (i + 1)
      · have hrest : findallFencedAux s k e = [] :=
          findallFencedAux_nil s k e (fun i' hi' => fenceMatchAt_last s i cap e hf i' hi')
        show (cap :: findallFencedAux s k e).length ≤ 1
        rw [hrest]
        simp

lemma runPipeline_counts_le (o : Oracle) (i : Nat) :
    (runPipeline o i).1.fixCalls ≤ MAX_FIX_REVIEW_ITERATIONS ∧
    (runPipeline o i).1.reviewCalls ≤ MAX_FIX_REVIEW_ITERATIONS := by
  simp only [runPipeline]
  have c1 := runAgentStep_counts "triage" o.triage (initSim i)
  rcases e1 : runAgentStep "triage" o.triage (initSim i) with ⟨r1, s1⟩
  rw [e1] at c1
  dsimp only at c1
  have h1f : s1.fixCalls = 0 := by rw [c1.1]; rfl
  have h1r : s1.reviewCalls = 0 := by rw [c1.2.1]; rfl
  cases r1
  case stop =>
    dsimp only [finalizeSim]
    constructor
    · rw [h1f]; exact Nat.zero_le _
    · rw [h1r]; exact Nat.zero_le _
  all_goals (
    dsimp only
    have c2 := runAgentStep_counts "research" o.research s1
    rcases e2 : runAgentStep "research" o.research s1 with ⟨r2, s2⟩
    rw [e2] at c2
    dsimp only at c2
    have h2f : s2.fixCalls = 0 := by rw [c2.1]; exact h1f
    have h2r : s2.reviewCalls = 0 := by rw [c2.2.1]; exact h1r
    cases r2
    case stop =>
      dsimp only [finalizeSim]
      constructor
      · rw [h2f]; exact Nat.zero_le _
      · rw [h2r]; exact Nat.zero_le _
    all_goals (
      dsimp only
      have cl := fixReviewLoop_counts_le o MAX_FIX_REVIEW_ITERATIONS s2
      rcases el : fixReviewLoop o MAX_FIX_REVIEW_ITERATIONS s2 with s3 | s3 | s3
      case stopped =>
        rw [el] at cl
        dsimp only [LoopExit.sim] at cl
        dsimp only [finalizeSim]
        simp only [MAX_FIX_REVIEW_ITERATIONS] at cl ⊢
        omega
      case fell =>
        rw [el] at cl
        dsimp only [LoopExit.sim] at cl
        dsimp only
        by_cases hrun : s3.st.status = PipelineStatus.running
        · rw [if_pos hrun]
          dsimp only [finalizeSim]
          simp only [MAX_FIX_REVIEW_ITERATIONS] at cl ⊢
          omega
        · rw [if_neg hrun]
          dsimp only [finalizeSim]
          simp only [MAX_FIX_REVIEW_ITERATIONS] at cl ⊢
          omega
      case crashed =>
        rw [el] at cl
        dsimp only [LoopExit.sim] at cl
        simp only [MAX_FIX_REVIEW_ITERATIONS] at cl ⊢
        omega))

/-! ## Claim theorems -/

/-- Claim C1 (corrected): when phase 1 collects the assistant text segments of
the output (all of string shape) and some segment's candidate list — the
matches of the greedy fenced-block pattern — holds a candidate that decodes
to an object containing the required field, `extract_json_from_output`
returns a decoded object containing that field, regardless of surrounding
prose or of other segments.  The premise must speak of the greedy pattern's
candidates, not of fenced blocks per se: a valid fenced block can be merged
with a neighbouring block into one undecodable candidate. -/
theorem fenced_block_with_field_extracted (output field : String)
    (items : List (Option Chars)) (t c : Chars) (j : Json)
    (hc : collectTexts output = .ok items)
    (hall : ∀ x ∈ items, x ≠ none)
    (ht : some t ∈ items)
    (hcand : c ∈ findallFenced t)
    (hacc : acceptCandidate field c = some j) :
    ∃ j', extract_json_from_output output field = .ok (some j') ∧
      hasKey j' field = true := by
  obtain ⟨j1, h1⟩ := scanSegment_of_candidate field t c j hcand hacc
  obtain ⟨j2, h2⟩ := scanTextsRev_of_segment field items.reverse
    (fun x hx => hall x (List.mem_reverse.mp hx))
    t (List.mem_reverse.mpr ht) j1 h1
  refine ⟨j2, ?_, scanTextsRev_hasKey field items.reverse j2 h2⟩
  simp only [extract_json_from_output, hc]
  rw [h2]

/-- Claim C1 counterexample: `cex1out` contains a fenced block that decodes,
on its own, to an object carrying the required field, yet the extractor
returns `None`: the greedy pattern merges the preceding malformed block and
the valid block into one undecodable candidate. -/
theorem fenced_block_with_field_extracted_cex :
    json_loadsChars cex1block =
      some (.obj [("classification", .obj [("x", .num 1)])]) ∧
    hasKey (.obj [("classification", .obj [("x", .num 1)])]) "classification" = true ∧
    containsSub ("```json\n".data ++ cex1block ++ "\n```".data) cex1out.data = true ∧
    extract_json_from_output cex1out "classification" = .ok none :=
  ⟨by with_unfolding_all rfl, rfl, by with_unfolding_all rfl, by with_unfolding_all rfl⟩

/-- Claim C1 witness: a stream output whose single assistant segment holds
one fenced block carrying the field. -/
theorem fenced_block_with_field_extracted_witness :
    ∃ j', extract_json_from_output w1out "classification" = .ok (some j') ∧
      hasKey j' "classification" = true :=
  fenced_block_with_field_extracted w1out "classification" [some w1seg] w1seg w1cand
    w1json (by with_unfolding_all rfl) (by decide) (List.Mem.head _)
    (by with_unfolding_all decide) (by with_unfolding_all rfl)

/-- Claim C2 (corrected): candidate evaluation is most-recent-segment-first —
when every later segment yields no acceptable candidate, the accepted object
is the earlier segment's — but within one segment the greedy pattern admits
at most one candidate, so no last-to-first iteration over distinct blocks of
one segment takes place. -/
theorem extraction_prefers_recent_segments (output field : String)
    (pre post : List (Option Chars)) (t : Chars) (j : Json)
    (hc : collectTexts output = .ok (pre ++ some t :: post))
    (hrej : ∀ c : Chars, some c ∈ post → scanSegmentChars field c = none)
    (hall : ∀ x ∈ post, x ≠ none)
    (hts : scanSegmentChars field t = some j) :
    extract_json_from_output output field = .ok (some j) ∧
    ∀ u : Chars, (findallFenced u).length ≤ 1 :=
  ⟨extract_from_segment output field pre post t j hc hrej hall hts,
   fun u => findallFenced_length_le_one u⟩

/-- Claim C2 counterexample: in `cex2out` the earlier fenced block carries
the required field and the later fenced block is valid JSON without it, yet
the extractor returns `None` rather than the earlier block's content: both
blocks lie in one text, and the greedy pattern merges them into a single
undecodable candidate. -/
theorem extraction_prefers_recent_segments_cex :
    json_loadsChars cex2early =
      some (.obj [("classification", .obj [("a", .num 1)])]) ∧
    json_loadsChars cex2late = some (.obj [("other", .num 2)]) ∧
    hasKey (.obj [("other", .num 2)]) "classification" = false ∧
    containsSub ("```json\n".data ++ cex2early ++ "\n```".data) cex2out.data = true ∧
    containsSub ("```json\n".data ++ cex2late ++ "\n```".data) cex2out.data = true ∧
    extract_json_from_output cex2out "classification" = .ok none :=
  ⟨by with_unfolding_all rfl, by with_unfolding_all rfl, rfl, by with_unfolding_all rfl,
   by with_unfolding_all rfl, by with_unfolding_all rfl⟩

/-- Claim C2 witness: two assistant segments; the later one's block lacks the
field, so the earlier segment's object is returned. -/
theorem extraction_prefers_recent_segments_witness :
    extract_json_from_output w2out "classification" = .ok (some w2json) ∧
    ∀ u : Chars, (findallFenced u).length ≤ 1 :=
  extraction_prefers_recent_segments w2out "classification" [] [some w2seg2] w2seg1
    w2json (by with_unfolding_all rfl)
    (by intro c h
        simp only [List.mem_singleton, Option.some.injEq] at h
        subst h
        with_unfolding_all rfl)
    (by decide)
    (by with_unfolding_all rfl)

/-- Claim C3: no run performs more than `MAX_FIX_REVIEW_ITERATIONS` (= 3)
fix or review invocations, and with a review that reports `REQUEST_CHANGES`
on every iteration (and revisions that keep changing files) the pipeline
ends `BLOCKED` after exactly 3 fix calls and 3 review calls, citing
iteration exhaustion. -/
theorem fix_review_loop_bounded :
    (∀ (o : Oracle) (i : Nat),
      (runPipeline o i).1.fixCalls ≤ MAX_FIX_REVIEW_ITERATIONS ∧
      (runPipeline o i).1.reviewCalls ≤ MAX_FIX_REVIEW_ITERATIONS) ∧
    (∀ (o : Oracle) (i : Nat), o.triage.status = .success →
      o.research.status = .success → o.fixFirst.status = .success →
      o.revisionPromptExists = true →
      (∀ n, reviewRequestsChanges (o.review n) = true) →
      (∀ n, revisionContinues (o.revision n) = true) →
      (runPipeline o i).1.st.status = .blocked ∧
      (runPipeline o i).1.fixCalls = 3 ∧
      (runPipeline o i).1.reviewCalls = 3 ∧
      (runPipeline o i).1.st.failure_reason =
        "Review still requesting changes after 3 iterations") := by
  refine ⟨fun o i => runPipeline_counts_le o i, fun o i ht hr hf hp hrc hcont => ?_⟩
  obtain ⟨h1, h2, h3, h4, _⟩ := alwaysRC_run o i ht hr hf hp hrc hcont
  exact ⟨h1, h2, h3, h4⟩

/-- Claim C3 witness: the always-`REQUEST_CHANGES` oracle at issue 1. -/
theorem fix_review_loop_bounded_witness :
    (runPipeline alwaysRequestChangesOracle 1).1.st.status = .blocked ∧
    (runPipeline alwaysRequestChangesOracle 1).1.fixCalls = 3 ∧
    (runPipeline alwaysRequestChangesOracle 1).1.reviewCalls = 3 ∧
    (runPipeline alwaysRequestChangesOracle 1).1.st.failure_reason =
      "Review still requesting changes after 3 iterations" :=
  fix_review_loop_bounded.2 alwaysRequestChangesOracle 1 rfl rfl rfl rfl
    (fun _ => rfl) (fun _ => by with_unfolding_all rfl)

/-- Claim C4 (corrected): a first fix attempt reporting zero changed files
ends the run `SKIPPED` with no review invocation; a revision reporting zero
changed files is terminal (`BLOCKED`) only when its payload also explicitly
reports `fix_applied` false — a zero-file revision without that signal
continues the loop, so review can still run. -/
theorem zero_files_fix_outcomes :
    (∀ (o : Oracle) (i : Nat), o.triage.status = .success →
      o.research.status = .success → o.fixFirst.status = .skipped →
      (runPipeline o i).1.st.status = .skipped ∧
      (runPipeline o i).1.reviewCalls = 0 ∧
      (runPipeline o i).1.st.failure_reason = "Fix agent made no changes") ∧
    (∀ (o : Oracle) (i : Nat) (d : Json) (q : ℚ),
      o.triage.status = .success → o.research.status = .success →
      o.fixFirst.status = .success → o.revisionPromptExists = true →
      reviewRequestsChanges (o.review 1) = true →
      o.revision 2 = .ok (some d) →
      normalizeConfidence ((d.get "confidence").getD (.num (1 / 2))) = some q →
      truthy (mergedFileList d) = false →
      truthy ((d.get "fix_applied").getD (.bool true)) = false →
      (runPipeline o i).1.st.status = .blocked ∧
      (runPipeline o i).1.fixCalls = 2 ∧
      (runPipeline o i).1.reviewCalls = 1) := by
  constructor
  · intro o i ht hr hfk
    obtain ⟨h1, h2, h3, _⟩ := firstFixSkip_run o i ht hr hfk
    exact ⟨h1, h2, h3⟩
  · intro o i d q ht hr hf hp hrc1 hok hq hfiles hfa
    exact explicitNoFixRevision_run o i d q ht hr hf hp hrc1 hok hq hfiles hfa

/-- Claim C4 counterexample: a second-iteration revision that reports zero
changed files without an explicit `fix_applied` false does not end the run
`SKIPPED` and does not bypass review: the loop continues, review runs a
second time and approves, and the run ends `SUCCESS` after two review
invocations. -/
theorem zero_files_fix_outcomes_cex :
    (runPipeline zeroFileRevisionOracle 1).1.st.status = .success ∧
    (runPipeline zeroFileRevisionOracle 1).1.reviewCalls = 2 ∧
    (runPipeline zeroFileRevisionOracle 1).1.fixCalls = 2 := by
  refine ⟨?_, ?_, ?_⟩ <;> with_unfolding_all rfl

/-- Claim C4 witness: the no-changes first fix and the explicit-no-fix
revision, at concrete oracles. -/
theorem zero_files_fix_outcomes_witness :
    ((runPipeline fixNoChangesOracle 1).1.st.status = .skipped ∧
     (runPipeline fixNoChangesOracle 1).1.reviewCalls = 0 ∧
     (runPipeline fixNoChangesOracle 1).1.st.failure_reason =
       "Fix agent made no changes") ∧
    ((runPipeline explicitNoFixOracle 1).1.st.status = .blocked ∧
     (runPipeline explicitNoFixOracle 1).1.fixCalls = 2 ∧
     (runPipeline explicitNoFixOracle 1).1.reviewCalls = 1) :=
  ⟨zero_files_fix_outcomes.1 fixNoChangesOracle 1 rfl rfl rfl,
   zero_files_fix_outcomes.2 explicitNoFixOracle 1 zeroFilesNoFixPayload (1 / 2)
     rfl rfl rfl rfl rfl rfl (by with_unfolding_all rfl) rfl rfl⟩

/-- Claim C5 (corrected): aggregate confidence is the weighted sum
0.15·triage + 0.20·research + 0.35·fix + 0.30·review over the per-stage
confidences, rounded to two decimals, and it is set only on `SUCCESS` in
every run with no escaping exception; the spec's worked vector
(0.9, 0.8, 0.7, 0.85) yields 0.8 — the exact sum is 0.795, which
`round(·, 2)` takes to 0.8, not the spec's 0.79. -/
theorem aggregate_confidence_weighted :
    (∀ t r f v : ℚ,
      (calcConfidence [("triage", okStateM "triage" t),
        ("research", okStateM "research" r), ("fix", okStateM "fix" f),
        ("review", okStateM "review" v)]).1 =
        round2 (t * (15 / 100) + r * (20 / 100) + f * (35 / 100) + v * (30 / 100))) ∧
    (calcConfidence exampleAgentsC5).1 = 4 / 5 ∧
    (∀ (o : Oracle) (i : Nat), (runPipeline o i).2 = false →
      ((runPipeline o i).1.st.aggregate_confidence.isSome ↔
        (runPipeline o i).1.st.status = .success)) := by
  refine ⟨?_, by with_unfolding_all rfl, fun o i h => (runPipeline_shape o i h).2⟩
  intro t r f v
  have h : (calcConfidence [("triage", okStateM "triage" t),
      ("research", okStateM "research" r), ("fix", okStateM "fix" f),
      ("review", okStateM "review" v)]).1 =
      round2 (0 + t * (15 / 100) + r * (20 / 100) + f * (35 / 100) + v * (30 / 100)) := rfl
  rw [h]
  exact congrArg round2 (by ring)

/-- Claim C5 counterexample: the spec's worked example does not evaluate to
0.79; the weighted sum rounds to 0.8. -/
theorem aggregate_confidence_weighted_cex :
    (calcConfidence exampleAgentsC5).1 = 4 / 5 ∧
    ¬ (calcConfidence exampleAgentsC5).1 = 79 / 100 := by
  constructor
  · with_unfolding_all rfl
  · intro h
    rw [show (calcConfidence exampleAgentsC5).1 = 4 / 5 by with_unfolding_all rfl] at h
    exact absurd h (by with_unfolding_all decide)

/-- Claim C5 witness: the formula at the example vector, and the fully
successful example run, which ends `SUCCESS` with aggregate 0.8. -/
theorem aggregate_confidence_weighted_witness :
    ((calcConfidence [("triage", okStateM "triage" (9 / 10)),
        ("research", okStateM "research" (8 / 10)), ("fix", okStateM "fix" (7 / 10)),
        ("review", okStateM "review" (85 / 100))]).1 =
      round2 ((9 / 10) * (15 / 100) + (8 / 10) * (20 / 100) + (7 / 10) * (35 / 100)
        + (85 / 100) * (30 / 100))) ∧
    ((runPipeline exampleSuccessOracle 1).2 = false ∧
     ((runPipeline exampleSuccessOracle 1).1.st.aggregate_confidence.isSome ↔
       (runPipeline exampleSuccessOracle 1).1.st.status = .success)) ∧
    (runPipeline exampleSuccessOracle 1).1.st.status = .success ∧
    (runPipeline exampleSuccessOracle 1).1.st.aggregate_confidence = some (4 / 5) :=
  ⟨aggregate_confidence_weighted.1 (9 / 10) (8 / 10) (7 / 10) (85 / 100),
   ⟨by with_unfolding_all rfl,
    aggregate_confidence_weighted.2.2 exampleSuccessOracle 1 (by with_unfolding_all rfl)⟩,
   by with_unfolding_all rfl, by with_unfolding_all rfl⟩

/-- Claim C6 (corrected): in every run with no escaping exception, each
persisted snapshot has `completed_at` set iff its status is terminal and
`aggregate_confidence` set iff its status is `SUCCESS`, and the snapshot
log is a block of running mid-snapshots followed by exactly one final,
completed, terminal snapshot.  A run aborted by an escaping exception
writes no terminal snapshot at all. -/
theorem snapshot_invariant (o : Oracle) (i : Nat)
    (h : (runPipeline o i).2 = false) :
    (∀ p ∈ (runPipeline o i).1.snapshots,
      (p.completed_at = true ↔ ¬ p.status = .running) ∧
      (p.aggregate_confidence.isSome ↔ p.status = .success)) ∧
    (∃ body fin, (runPipeline o i).1.snapshots = body ++ [fin] ∧
      (∀ p ∈ body, p.status = .running ∧ p.completed_at = false) ∧
      fin.completed_at = true ∧ ¬ fin.status = .running) := by
  obtain ⟨⟨body, fin, hsnap, hbody, hfc, hfr, hfa⟩, _⟩ := runPipeline_shape o i h
  constructor
  · intro p hp
    rw [hsnap] at hp
    rcases List.mem_append.mp hp with hp | hp
    · obtain ⟨h1, h2, h3⟩ := hbody p hp
      constructor
      · constructor
        · intro hc
          rw [h2] at hc
          cases hc
        · intro hr
          exact absurd h1 hr
      · constructor
        · intro ha
          rw [h3] at ha
          simp at ha
        · intro hs
          rw [h1] at hs
          cases hs
    · rw [List.mem_singleton] at hp
      subst hp
      exact ⟨⟨fun _ => hfr, fun _ => hfc⟩, hfa⟩
  · exact ⟨body, fin, hsnap, fun p hp => ⟨(hbody p hp).1, (hbody p hp).2.1⟩, hfc, hfr⟩

/-- Claim C6 counterexample: a revision payload carrying a null confidence
makes the `float()` call raise; the exception escapes `Pipeline.run`, so the
run ends with five persisted snapshots, every one still `RUNNING` with
`completed_at` unset — there is no final terminal snapshot. -/
theorem snapshot_invariant_cex :
    (runPipeline nullConfidenceOracle 1).2 = true ∧
    (runPipeline nullConfidenceOracle 1).1.snapshots.length = 5 ∧
    ((runPipeline nullConfidenceOracle 1).1.snapshots.all
      (fun p => !p.completed_at && decide (p.status = .running))) = true := by
  refine ⟨?_, ?_, ?_⟩ <;> with_unfolding_all rfl

/-- Claim C6 witness: the successful example run satisfies both snapshot
properties. -/
theorem snapshot_invariant_witness :
    (∀ p ∈ (runPipeline exampleSuccessOracle 1).1.snapshots,
      (p.completed_at = true ↔ ¬ p.status = .running) ∧
      (p.aggregate_confidence.isSome ↔ p.status = .success)) ∧
    (∃ body fin, (runPipeline exampleSuccessOracle 1).1.snapshots = body ++ [fin] ∧
      (∀ p ∈ body, p.status = .running ∧ p.completed_at = false) ∧
      fin.completed_at = true ∧ ¬ fin.status = .running) :=
  snapshot_invariant exampleSuccessOracle 1 (by with_unfolding_all rfl)

/-- Claim C7: a `BLOCK` verdict from the first review ends the run `BLOCKED`
at once: one fix invocation, one review invocation, and the blocking
failure reason. -/
theorem block_verdict_halts (o : Oracle) (i : Nat)
    (ht : o.triage.status = .success) (hr : o.research.status = .success)
    (hf : o.fixFirst.status = .success)
    (hbs : (o.review 1).status = .skipped)
    (hbv : (o.review 1).data.get "verdict" = some (.str "BLOCK")) :
    (runPipeline o i).1.st.status = .blocked ∧
    (runPipeline o i).1.st.failure_reason = "Review blocked: BLOCK" ∧
    (runPipeline o i).1.fixCalls = 1 ∧
    (runPipeline o i).1.reviewCalls = 1 := by
  obtain ⟨h1, h2, h3, h4, _⟩ := blockFirst_run o i ht hr hf hbs hbv
  exact ⟨h1, h2, h3, h4⟩

/-- Claim C7 witness: the oracle whose review blocks on iteration 1. -/
theorem block_verdict_halts_witness :
    (runPipeline blockFirstOracle 1).1.st.status = .blocked ∧
    (runPipeline blockFirstOracle 1).1.st.failure_reason = "Review blocked: BLOCK" ∧
    (runPipeline blockFirstOracle 1).1.fixCalls = 1 ∧
    (runPipeline blockFirstOracle 1).1.reviewCalls = 1 :=
  block_verdict_halts blockFirstOracle 1 rfl rfl rfl rfl rfl

/-- Claim C8: for a confidence scalar x in the unit interval, the bare
numeric payload and the object payload with an `overall` key normalize to
the same single scalar x, making the two input shapes indistinguishable
downstream. -/
theorem confidence_normalization (x : ℚ) (h0 : 0 ≤ x) (h1 : x ≤ 1) :
    normalizeConfidence (.num x) = some x ∧
    normalizeConfidence (.obj [("overall", .num x)]) = some x ∧
    normalizeConfidence (.num x) = normalizeConfidence (.obj [("overall", .num x)]) :=
  ⟨rfl, rfl, rfl⟩

/-- Claim C8 witness: the two payload shapes at x = 3/4. -/
theorem confidence_normalization_witness :
    normalizeConfidence (.num (3 / 4)) = some (3 / 4) ∧
    normalizeConfidence (.obj [("overall", .num (3 / 4))]) = some (3 / 4) ∧
    normalizeConfidence (.num (3 / 4)) =
      normalizeConfidence (.obj [("overall", .num (3 / 4))]) :=
  confidence_normalization (3 / 4) (by with_unfolding_all decide)
    (by with_unfolding_all decide)

/-- Claim C9: a fix-stage execution whose process succeeds but yields no
extractable payload synthesizes the conservative default (confidence 0.5,
empty file list): the first attempt then reports `SKIPPED` — never
`FAILED` — and the pipeline ends `SKIPPED`; a revision in the same
situation keeps the loop running and leaves the pipeline status
untouched. -/
theorem extraction_failure_not_failed :
    (∀ r : AgentStateM, r.status = .success →
      fixAgentRun (some r) (.ok none) = .ok (.skipped, skipFixPayload)) ∧
    (∀ (o : Oracle) (i : Nat), o.triage.status = .success →
      o.research.status = .success →
      o.fixFirst = executeM "fix" (.skipped, skipFixPayload) →
      (runPipeline o i).1.st.status = .skipped ∧
      ¬ (runPipeline o i).1.st.status = .failed) ∧
    (∀ (o : Oracle) (s : Sim) (rv : AgentStateM),
      o.revisionPromptExists = true →
      lookupAgent s.agents "review" = some rv →
      o.revision s.fixIteration = .ok none →
      (runFixRevision o s).1 = StepResult.next ∧
      (runFixRevision o s).2.st.status = s.st.status) := by
  refine ⟨?_, ?_, ?_⟩
  · intro r h
    unfold fixAgentRun
    dsimp only
    rw [if_neg (fun hcontra => hcontra h)]
    with_unfolding_all rfl
  · intro o i ht hr hff
    have hfk : o.fixFirst.status = .skipped := by rw [hff]; rfl
    obtain ⟨h1, _, _, _⟩ := firstFixSkip_run o i ht hr hfk
    refine ⟨h1, ?_⟩
    rw [h1]
    decide
  · intro o s rv hp hr hok
    obtain ⟨s', e, hst, _⟩ := runFixRevision_next o s rv hp hr
      (by rw [hok]; with_unfolding_all rfl)
    rw [e]
    exact ⟨rfl, hst⟩

/-- Claim C9 witness: the default payload at a successful research state, the
no-extraction first-fix oracle, and a no-extraction revision from a mid-run
state. -/
theorem extraction_failure_not_failed_witness :
    fixAgentRun (some (okStateM "research" 1)) (.ok none) =
      .ok (.skipped, skipFixPayload) ∧
    ((runPipeline noExtractionOracle 1).1.st.status = .skipped ∧
     ¬ (runPipeline noExtractionOracle 1).1.st.status = .failed) ∧
    ((runFixRevision revExtractionFailOracle simWithReview).1 = StepResult.next ∧
     (runFixRevision revExtractionFailOracle simWithReview).2.st.status =
       simWithReview.st.status) :=
  ⟨extraction_failure_not_failed.1 (okStateM "research" 1) rfl,
   extraction_failure_not_failed.2.1 noExtractionOracle 1 rfl rfl rfl,
   extraction_failure_not_failed.2.2 revExtractionFailOracle simWithReview rcReviewM
     rfl rfl rfl⟩

/-- Claim C10: a skipped research stage does not halt the pipeline at that
stage — a 'research:skipped' marker is appended and control reaches the
fix-review loop — but the fix agent then refuses with 'Research not
completed', so the run ends `FAILED` after exactly one fix invocation. -/
theorem research_skipped_pipeline_failed :
    (∀ (r : AgentStateM) (cl : ClaudeOutcome), r.status = .skipped →
      fixAgentRun (some r) cl =
        .ok (.failed, .obj [("error", .str "Research not completed")])) ∧
    (∀ (o : Oracle) (i : Nat), o.triage.status = .success →
      o.research.status = .skipped →
      o.fixFirst = executeM "fix"
        (.failed, .obj [("error", .str "Research not completed")]) →
      (runPipeline o i).1.st.status = .failed ∧
      (runPipeline o i).1.st.failure_reason = "Research not completed" ∧
      (runPipeline o i).1.st.agents_completed =
        ["triage", "research:skipped", "fix:failed"] ∧
      (runPipeline o i).1.fixCalls = 1) := by
  constructor
  · intro r cl h
    unfold fixAgentRun
    dsimp only
    rw [if_pos (by rw [h]; decide)]
  · intro o i ht hrk hff
    have hfs : o.fixFirst.status = .failed := by rw [hff]; rfl
    have hfe : o.fixFirst.error = "Research not completed" := by rw [hff]; rfl
    obtain ⟨h1, h2, h3, h4, _, _⟩ := researchSkip_run o i ht hrk hfs hfe
    exact ⟨h1, h2, h3, h4⟩

/-- Claim C10 witness: the skipped-research oracle whose first fix outcome
is the fix agent's own refusal. -/
theorem research_skipped_pipeline_failed_witness :
    fixAgentRun (some (skippedStateM "research")) (.ok none) =
      .ok (.failed, .obj [("error", .str "Research not completed")]) ∧
    ((runPipeline (skippedResearchOracle (.ok none)) 1).1.st.status = .failed ∧
     (runPipeline (skippedResearchOracle (.ok none)) 1).1.st.failure_reason =
       "Research not completed" ∧
     (runPipeline (skippedResearchOracle (.ok none)) 1).1.st.agents_completed =
       ["triage", "research:skipped", "fix:failed"] ∧
     (runPipeline (skippedResearchOracle (.ok none)) 1).1.fixCalls = 1) :=
  ⟨research_skipped_pipeline_failed.1 (skippedStateM "research") (.ok none) rfl,
   research_skipped_pipeline_failed.2 (skippedResearchOracle (.ok none)) 1 rfl rfl
     (by with_unfolding_all rfl)⟩
